import Mathlib

/-!
Meta-agent factory: orchestrator, lifecycle controller and workers.

A shallow embedding of `src/system.js`: the two worker scripts
(`WORKER_HUNTER_SOURCE`, `WORKER_CRISIS_SOURCE`) and the `MetaAgent` class
(`broadcastLifecycle`, `requestSpawn`, `requestKill`, `handleAgentRegistered`,
`handleAgentDeregistered`, `handleWorkerMessage`, `checkChain`, `processBlock`).

Modelling conventions.
* JavaScript numbers that the program computes with `parseInt` and integer
  arithmetic are `JSNum`: either `NaN` or an integer. `parseInt16` rounds what
  it reads to the nearest number; the arithmetic on heights and usage is exact,
  as it is in JavaScript below 2^53.
* JavaScript `Map` and `Set` are insertion-ordered lists.
* Everything the outside world answers (JSON-RPC replies, ledger replies) is an
  explicit argument of the function that awaits it.
* Everything the program does to the outside world (UI events, ledger calls,
  worker termination) is appended to `State.trace`.
* An `async` method is cut at its `await`s. `requestSpawn`, `requestKill` and
  `broadcastLifecycle` assign orchestrator fields only before their first
  `await`, so each is one function whose later effects are appended at the call;
  `processBlock` is `processBlockDispatch` (up to the drain pause) followed by
  `processBlockEvaluate`, and anything may happen in between.
* A worker is a thread of its own: `Worker.inbox` and `Worker.outbox` are the
  two message queues, `workerRun` and `deliver` the two ends of a delivery.
* `efficiency` is a rational: the exact value of the number the worker
  computes (`ratToDouble` of the quotient); `toFixed2` rounds that exact value.
-/

namespace MetaAgentFactory

/-! ## JavaScript values -/

/-- A JavaScript number as far as this program produces them from `parseInt`
and integer arithmetic: `NaN` or an integer. -/
inductive JSNum
  | nan
  | int (i : Int)
  deriving DecidableEq, Repr

namespace JSNum

/-- JavaScript `a <= b`: false as soon as one side is `NaN`. -/
def le : JSNum → JSNum → Bool
  | int a, int b => decide (a ≤ b)
  | _, _ => false

/-- JavaScript `a >= b`. -/
def ge : JSNum → JSNum → Bool
  | int a, int b => decide (b ≤ a)
  | _, _ => false

/-- JavaScript `a > b`. -/
def gt : JSNum → JSNum → Bool
  | int a, int b => decide (b < a)
  | _, _ => false

/-- JavaScript `a === b` on numbers: `NaN` equals nothing. -/
def strictEq : JSNum → JSNum → Bool
  | int a, int b => decide (a = b)
  | _, _ => false

/-- JavaScript `a + b`. -/
def add : JSNum → JSNum → JSNum
  | int a, int b => int (a + b)
  | _, _ => nan

/-- JavaScript `Math.abs(a - b)`. -/
def absDiff : JSNum → JSNum → JSNum
  | int a, int b => int ((a - b).natAbs)
  | _, _ => nan

/-- JavaScript truthiness of a number: `0` and `NaN` are falsy. -/
def truthy : JSNum → Bool
  | int i => decide (i ≠ 0)
  | nan => false

/-- JavaScript `a % 9 === 0` style test: remainder with the sign of the
dividend, compared with zero. -/
def remIsZero (a : JSNum) (m : Int) : Bool :=
  match a with
  | int i => decide (Int.tmod i m = 0)
  | nan => false

/-- JavaScript `String(n)` for an integer-valued number or `NaN`. -/
def toStr : JSNum → String
  | int i => toString i
  | nan => "NaN"

end JSNum

/-- Value of a hexadecimal digit, if the character is one. -/
def hexDigit (c : Char) : Option Nat :=
  if '0' ≤ c ∧ c ≤ '9' then some (c.toNat - 48)
  else if 'a' ≤ c ∧ c ≤ 'f' then some (c.toNat - 87)
  else if 'A' ≤ c ∧ c ≤ 'F' then some (c.toNat - 55)
  else none

/-- White space that `parseInt` skips: tab, line feed, vertical tab, form feed,
carriage return, the space separators (space, no-break space, U+1680,
U+2000 to U+200A, U+202F, U+205F, U+3000), line and paragraph separators, BOM. -/
def isJsWhite (c : Char) : Bool :=
  c.toNat = 9 || c.toNat = 10 || c.toNat = 11 || c.toNat = 12 || c.toNat = 13 ||
  c.toNat = 32 || c.toNat = 160 || c.toNat = 5760 ||
  (8192 ≤ c.toNat && c.toNat ≤ 8202) ||
  c.toNat = 8232 || c.toNat = 8233 || c.toNat = 8239 || c.toNat = 8287 ||
  c.toNat = 12288 || c.toNat = 65279

/-- Longest run of leading hexadecimal digits, as digit values. -/
def leadingHex : List Char → List Nat
  | [] => []
  | c :: cs =>
    match hexDigit c with
    | some d => d :: leadingHex cs
    | none => []

/-- The step of `parseInt` after white space and sign: drop `0x` / `0X`. -/
def dropHexMark : List Char → List Char
  | '0' :: 'x' :: cs => cs
  | '0' :: 'X' :: cs => cs
  | cs => cs

/-- The integer a JavaScript number holds for the mathematical integer `v`:
`v` itself below 2^53, else `v` rounded to 53 significant bits, a tie going to
the even significand. (From 2^1024 on, beyond 255 hexadecimal digits,
JavaScript has `Infinity`, which `JSNum` does not model.) -/
def natToDouble (v : Nat) : Nat :=
  if v < 9007199254740992 then v
  else
    let e := Nat.log2 v - 52
    let q := v / 2 ^ e
    let r := v % 2 ^ e
    let half := 2 ^ (e - 1)
    if r > half ∨ (r = half ∧ q % 2 = 1) then (q + 1) * 2 ^ e else q * 2 ^ e

/-- JavaScript `parseInt(s, 16)`: skip white space, read a sign, drop `0x`,
read the longest run of hexadecimal digits; `NaN` when that run is empty, else
the number nearest to the value read. -/
def parseInt16 (s : String) : JSNum :=
  let cs := s.toList.dropWhile isJsWhite
  let signed : Bool × List Char :=
    match cs with
    | '-' :: r => (true, r)
    | '+' :: r => (false, r)
    | r => (false, r)
  let ds := leadingHex (dropHexMark signed.2)
  match ds with
  | [] => JSNum.nan
  | _ =>
    let v : Nat := natToDouble (ds.foldl (fun acc d => 16 * acc + d) 0)
    if signed.1 then JSNum.int (-(v : Int)) else JSNum.int v

/-- The power `2 ^ e` for an integer exponent. -/
def pow2 (e : Int) : ℚ :=
  if 0 ≤ e then (2 : ℚ) ^ e.toNat else 1 / (2 : ℚ) ^ (-e).toNat

/-- Nearest integer, a tie going to the even one. -/
def roundHalfEven (q : ℚ) : Int :=
  let f := Rat.floor q
  let r := q - f
  if r < 1 / 2 then f
  else if 1 / 2 < r then f + 1
  else if f % 2 = 0 then f else f + 1

/-- The JavaScript number nearest to the real `q`, as an exact rational: `q`
rounded to 53 significant bits, a tie going to the even significand (the range
of normal numbers, which a quotient of two counters never leaves). -/
def ratToDouble (q : ℚ) : ℚ :=
  if q = 0 then 0
  else
    let a := |q|
    let k : Int := (Nat.log2 a.num.natAbs : Int) - (Nat.log2 a.den : Int)
    let k2 : Int := if a < pow2 k then k - 1 else k
    let e := k2 - 52
    let m := roundHalfEven (a / pow2 e)
    (if q < 0 then -1 else 1) * (m : ℚ) * pow2 e

/-- JavaScript `s.substr(start, len)` on a string of one-unit characters. -/
def substr (s : String) (start len : Nat) : String :=
  String.mk ((s.toList.drop start).take len)

/-- JavaScript `s.includes(t)`. -/
def includesChars : List Char → List Char → Bool
  | [], t => t.isEmpty
  | c :: cs, t => t.isPrefixOf (c :: cs) || includesChars cs t

/-- JavaScript `s.includes(t)` on strings. -/
def includes (s t : String) : Bool :=
  includesChars s.toList t.toList

/-! ## JavaScript `Map` and `Set` as insertion-ordered lists -/

/-- JavaScript `map.has(k)`. -/
def mapHas {β : Type} (m : List (String × β)) (k : String) : Bool :=
  m.any (fun p => p.1 == k)

/-- JavaScript `map.get(k)`; `none` is `undefined`. -/
def mapGet {β : Type} (m : List (String × β)) (k : String) : Option β :=
  (m.find? (fun p => p.1 == k)).map (fun p => p.2)

/-- JavaScript `map.set(k, v)`: overwrite in place, or append a new key. -/
def mapSet {β : Type} (m : List (String × β)) (k : String) (v : β) : List (String × β) :=
  if mapHas m k then m.map (fun p => if p.1 == k then (k, v) else p) else m ++ [(k, v)]

/-- JavaScript `map.delete(k)`. -/
def mapDelete {β : Type} (m : List (String × β)) (k : String) : List (String × β) :=
  m.filter (fun p => !(p.1 == k))

/-- JavaScript `set.has(k)`. -/
def setHas (m : List String) (k : String) : Bool :=
  m.any (fun p => p == k)

/-- JavaScript `set.add(k)`. -/
def setAdd (m : List String) (k : String) : List String :=
  if setHas m k then m else m ++ [k]

/-- JavaScript `set.delete(k)`. -/
def setDelete (m : List String) (k : String) : List String :=
  m.filter (fun p => !(p == k))

/-! ## Messages between the orchestrator and a worker -/

/-- Message posted to a worker: `INIT` with `payload.id` and
`payload.startBlock`, or `BLOCK` with the raw block fields. -/
inductive WorkerIn
  | init (id : String) (startBlock : String)
  | block (gasUsed : String) (hash : String) (executionFailed : Bool)
  deriving DecidableEq, Repr

/-- The `decision` object of a `DECISION` message. -/
structure Decision where
  type : String
  message : String
  cid : String
  action : String
  deriving DecidableEq, Repr

/-- The `metrics` object of a `METRICS` message; a field a variant does not
report is `none`. -/
structure MetricsReport where
  evalWindow : Nat
  outputs : Option Nat
  consecutiveFailures : Option Nat
  efficiency : Option ℚ
  maxSilence : Option Nat
  maxLife : Option Nat
  deriving DecidableEq

/-- Message posted by a worker. -/
inductive WorkerOut
  | decision (d : Decision)
  | metrics (m : MetricsReport)
  deriving DecidableEq

/-- `true` on a `METRICS` message. -/
def WorkerOut.isMetrics : WorkerOut → Bool
  | WorkerOut.metrics _ => true
  | WorkerOut.decision _ => false

/-- `true` on a `DECISION` message. -/
def WorkerOut.isDecision : WorkerOut → Bool
  | WorkerOut.decision _ => true
  | WorkerOut.metrics _ => false

/-! ## `WORKER_HUNTER_SOURCE` -/

/-- Private state of a HUNTER worker once `INIT` has been handled. -/
structure HunterState where
  id : String
  lastGas : JSNum
  evalWindow : Nat
  outputs : Nat
  maxSilence : Nat
  consecutiveFailures : Nat
  deriving DecidableEq, Repr

/-- The `INIT` branch of the HUNTER `onmessage`. -/
def hunterInit (id : String) : HunterState :=
  { id := id, lastGas := JSNum.int 0, evalWindow := 0, outputs := 0, maxSilence := 10,
    consecutiveFailures := 0 }

/-- The `METRICS` message a HUNTER posts: `efficiency` is the number
`outputs / (evalWindow || 1)`, the quotient rounded as JavaScript rounds it. -/
def hunterMetrics (st : HunterState) : WorkerOut :=
  WorkerOut.metrics
    { evalWindow := st.evalWindow
      outputs := some st.outputs
      consecutiveFailures := some st.consecutiveFailures
      efficiency :=
        some (ratToDouble
          ((st.outputs : ℚ) / (if st.evalWindow = 0 then 1 else (st.evalWindow : ℚ))))
      maxSilence := some st.maxSilence
      maxLife := none }

/-- The `DECISION` message a HUNTER posts for a gas delta. -/
def hunterDecision (st : HunterState) (delta : JSNum) (cid : String) : WorkerOut :=
  let k : String :=
    match delta with
    | JSNum.int d => toString (d / 1000)
    | JSNum.nan => "NaN"
  WorkerOut.decision
    { type := "decision"
      message := "[" ++ st.id ++ "] OPPORTUNITY: gas_delta_" ++ k ++ "k -> capture"
      cid := cid
      action := "EXECUTE" }

/-- The function `processBlock(block)` of the HUNTER script. -/
def hunterProcessBlock (st : HunterState) (gasUsedHex hash : String) (executionFailed : Bool) :
    HunterState × List WorkerOut :=
  let st1 : HunterState := { st with evalWindow := st.evalWindow + 1 }
  let gasUsed := parseInt16 gasUsedHex
  let cid := substr hash 2 8
  let st2 : HunterState :=
    if executionFailed then { st1 with consecutiveFailures := st1.consecutiveFailures + 1 } else st1
  if JSNum.strictEq st2.lastGas (JSNum.int 0) then
    ({ st2 with lastGas := gasUsed }, [])
  else
    let delta := JSNum.absDiff gasUsed st2.lastGas
    let st3 : HunterState := { st2 with lastGas := gasUsed }
    if JSNum.gt delta (JSNum.int 3000000) then
      let st4 : HunterState := { st3 with outputs := st3.outputs + 1, evalWindow := 0 }
      (st4, [hunterDecision st4 delta cid, hunterMetrics st4])
    else
      (st3, [hunterMetrics st3])

/-- The HUNTER `self.onmessage` on an initialised worker. -/
def hunterOnMessage (st : HunterState) : WorkerIn → HunterState × List WorkerOut
  | WorkerIn.init id _ => (hunterInit id, [])
  | WorkerIn.block g h f => hunterProcessBlock st g h f

/-! ## `WORKER_CRISIS_SOURCE` -/

/-- Private state of a CRISIS worker once `INIT` has been handled. -/
structure CrisisState where
  id : String
  evalWindow : Nat
  maxLife : Nat
  deriving DecidableEq, Repr

/-- The `INIT` branch of the CRISIS `onmessage`. -/
def crisisInit (id : String) : CrisisState :=
  { id := id, evalWindow := 0, maxLife := 20 }

/-- The `METRICS` message a CRISIS worker posts. -/
def crisisMetrics (st : CrisisState) : WorkerOut :=
  WorkerOut.metrics
    { evalWindow := st.evalWindow
      outputs := none
      consecutiveFailures := none
      efficiency := none
      maxSilence := none
      maxLife := some st.maxLife }

/-- The `DECISION` message a CRISIS worker posts on a failure flag. -/
def crisisDecision (st : CrisisState) (cid : String) : WorkerOut :=
  WorkerOut.decision
    { type := "decision"
      message := "[" ++ st.id ++ "] DEFENSE: detected_revert -> tightening_slippage"
      cid := cid
      action := "EXECUTE" }

/-- The CRISIS `self.onmessage` on an initialised worker. -/
def crisisOnMessage (st : CrisisState) : WorkerIn → CrisisState × List WorkerOut
  | WorkerIn.init id _ => (crisisInit id, [])
  | WorkerIn.block _ hash executionFailed =>
    let st1 : CrisisState := { st with evalWindow := st.evalWindow + 1 }
    if executionFailed then
      (st1, [crisisDecision st1 (substr hash 2 8), crisisMetrics st1])
    else
      (st1, [crisisMetrics st1])

/-! ## Worker handles -/

/-- Which script a worker was created from. -/
inductive WorkerSource
  | hunter
  | crisis
  deriving DecidableEq, Repr

/-- Private memory of a worker thread: nothing before `INIT`, then the state of
its script. -/
inductive WorkerMem
  | loaded
  | hunter (st : HunterState)
  | crisis (st : CrisisState)
  deriving DecidableEq

/-- A worker thread with its two message queues: `inbox` holds what the
orchestrator posted and the worker has not handled yet, `outbox` what the worker
posted and the orchestrator has not handled yet. -/
structure Worker where
  source : WorkerSource
  mem : WorkerMem
  inbox : List WorkerIn
  outbox : List WorkerOut
  deriving DecidableEq

/-- JavaScript `worker.postMessage(m)`. -/
def Worker.post (w : Worker) (m : WorkerIn) : Worker :=
  { w with inbox := w.inbox ++ [m] }

/-- The worker thread handles the oldest message of its inbox. A `BLOCK` that
arrives before any `INIT` is outside the model (`none`); the orchestrator posts
`INIT` first, on creation. -/
def Worker.run (w : Worker) : Option Worker :=
  match w.inbox with
  | [] => some w
  | m :: rest =>
    match w.mem, m with
    | WorkerMem.hunter st, _ =>
      let r := hunterOnMessage st m
      some { w with mem := WorkerMem.hunter r.1, inbox := rest, outbox := w.outbox ++ r.2 }
    | WorkerMem.crisis st, _ =>
      let r := crisisOnMessage st m
      some { w with mem := WorkerMem.crisis r.1, inbox := rest, outbox := w.outbox ++ r.2 }
    | WorkerMem.loaded, WorkerIn.init id _ =>
      match w.source with
      | WorkerSource.hunter => some { w with mem := WorkerMem.hunter (hunterInit id), inbox := rest }
      | WorkerSource.crisis => some { w with mem := WorkerMem.crisis (crisisInit id), inbox := rest }
    | WorkerMem.loaded, WorkerIn.block _ _ _ => none

/-! ## Orchestrator state -/

/-- The `metrics` object of an agent record. The record is created with the
first four fields; `maxSilence` and `maxLife` appear once a worker reports
them. -/
structure Metrics where
  evalWindow : Nat
  outputs : Nat
  efficiency : ℚ
  consecutiveFailures : Nat
  maxSilence : Option Nat
  maxLife : Option Nat
  deriving DecidableEq

/-- The object spread `{ ...agent.metrics, ...data.metrics }`: a reported
field overwrites, an unreported one is kept. -/
def Metrics.merge (m : Metrics) (r : MetricsReport) : Metrics :=
  { evalWindow := r.evalWindow
    outputs := r.outputs.getD m.outputs
    efficiency := r.efficiency.getD m.efficiency
    consecutiveFailures := r.consecutiveFailures.getD m.consecutiveFailures
    maxSilence := r.maxSilence.orElse (fun _ => m.maxSilence)
    maxLife := r.maxLife.orElse (fun _ => m.maxLife) }

/-- An entry of `this.agents`: `{ worker, type, metrics, pendingExec }`. -/
structure AgentRecord where
  worker : Worker
  type : String
  metrics : Metrics
  pendingExec : Option Decision
  deriving DecidableEq

/-- An object handed to `UI.renderEvent` (its `latency`, a clock reading, is
left out). -/
structure UIEvent where
  type : String
  message : String
  state : Option String
  cid : Option String
  hash : Option String
  deriving DecidableEq, Repr

/-- A call on the ledger made by `broadcastLifecycle`; `agentId` is the
identifier cut to 31 characters, as it is encoded into `bytes32`. -/
inductive LedgerCall
  | getNetwork
  | estimateGasRegister (agentId : String)
  | registerAgent (agentId : String)
  | estimateGasDeregister (agentId : String)
  | deregisterAgent (agentId : String)
  | txWait (hash : String)
  deriving DecidableEq, Repr

/-- What the orchestrator does to the outside world. -/
inductive Effect
  | ui (e : UIEvent)
  | ledger (c : LedgerCall)
  | terminate (id : String)
  deriving DecidableEq, Repr

/-- `true` on a ledger call. -/
def Effect.isLedger : Effect → Bool
  | Effect.ledger _ => true
  | _ => false

/-- The fields of a `MetaAgent` that its methods read or write. `lastSpawnBlock`
is `none` until `processBlock` first assigns it. -/
structure State where
  lastBlock : JSNum
  lastGas : Int
  agents : List (String × AgentRecord)
  isCycling : Bool
  highGasCount : Nat
  globalFailures : Nat
  tombstones : List String
  pendingTypes : List (String × String)
  lastSpawnBlock : Option JSNum
  trace : List Effect
  deriving DecidableEq

/-- The state the constructor leaves (its `META_ID_INIT` event is not part of
the trace). -/
def State.init : State :=
  { lastBlock := JSNum.int 0, lastGas := 0, agents := [], isCycling := false, highGasCount := 0,
    globalFailures := 0, tombstones := [], pendingTypes := [], lastSpawnBlock := none,
    trace := [] }

/-- A lifecycle UI event. -/
def uiLifecycle (message : String) (state : Option String) : Effect :=
  Effect.ui { type := "lifecycle", message := message, state := state, cid := none, hash := none }

/-! ## `broadcastLifecycle` -/

/-- A JavaScript error object as far as the `catch` block inspects it. -/
structure JSError where
  code : Option String
  message : String
  deriving DecidableEq, Repr

/-- Result of an awaited ledger call. -/
inductive Reply (α : Type)
  | ok (a : α)
  | threw (e : JSError)

/-- The `receipt` of a confirmed transaction. -/
structure Receipt where
  blockNumber : Nat
  gasUsed : Nat
  deriving DecidableEq, Repr

/-- What the ledger answers during one `broadcastLifecycle`: to
`provider.getNetwork()`, to `estimateGas`, to the transaction call (`none` when
`tx` or `tx.hash` is falsy, else the hash) and to `tx.wait()`. An answer that
the run never asks for is ignored. -/
structure BroadcastReply where
  getNetwork : Reply Unit
  estimateGas : Reply Nat
  send : Reply (Option String)
  wait : Reply Receipt

/-- The address the constructor stores in `this.registryAddr`. -/
def registryAddr : String := "0x04A7baE9686B51109ce4EC23dFfa93Bd43bE8026"

/-- The value of `ethers.constants.AddressZero`. -/
def addressZero : String := "0x0000000000000000000000000000000000000000"

/-- The constant `GAS_THRESHOLD` local to `broadcastLifecycle`. -/
def broadcastLifecycle.GAS_THRESHOLD : Nat := 500000

/-- The `catch (e)` block of `broadcastLifecycle`. -/
def broadcastCatch (e : JSError) : List Effect :=
  let aborted (reason : String) : List Effect :=
    [uiLifecycle ("CHAIN_SYNC: tx_aborted // reason:" ++ reason) (some "degraded")]
  if e.code = some "INSUFFICIENT_FUNDS" then aborted "insufficient_funds"
  else if e.code = some "NETWORK_ERROR" ∨ e.code = some "SERVER_ERROR" then
    [uiLifecycle "CHAIN_SYNC: paused_rpc_instability" (some "degraded")]
  else if e.code = some "CALL_EXCEPTION" then aborted "contract_revert"
  else if includes e.message "safety threshold" then aborted "gas_safety_abort"
  else
    match e.code with
    | some c => if c = "" then aborted e.message else aborted c
    | none => aborted e.message

/-- The tail of the `try` block: `if (tx && tx.hash) { ... await tx.wait() ... }`. -/
def broadcastAwaitReceipt (tx : Option String) (r : BroadcastReply) : List Effect :=
  match tx with
  | none => []
  | some hash =>
    [uiLifecycle ("CHAIN_SYNC: tx_broadcast // hash:" ++ hash) none,
     Effect.ledger (LedgerCall.txWait hash)] ++
    match r.wait with
    | Reply.threw e => broadcastCatch e
    | Reply.ok receipt =>
      [uiLifecycle ("CHAIN_SYNC: tx_confirmed // block:" ++ toString receipt.blockNumber ++
          " // gas:" ++ toString receipt.gasUsed) (some "success")]

/-- One branch `estimateGas`, threshold check, transaction call. -/
def broadcastTx (estimateCall txCall : LedgerCall) (r : BroadcastReply) : List Effect :=
  [Effect.ledger estimateCall] ++
  match r.estimateGas with
  | Reply.threw e => broadcastCatch e
  | Reply.ok est =>
    if est > broadcastLifecycle.GAS_THRESHOLD then
      broadcastCatch
        { code := none, message := "Gas estimate " ++ toString est ++ " exceeds safety threshold" }
    else
      [Effect.ledger txCall] ++
      match r.send with
      | Reply.threw e => broadcastCatch e
      | Reply.ok tx => broadcastAwaitReceipt tx r

/-- The method `broadcastLifecycle(id, action, detail)`: the effects of one run
against the ledger replies `r`. It assigns no field of the orchestrator.
`formatBytes32String` rejects a text longer than 31 bytes; that error is caught
like any other. -/
def broadcastLifecycle (id action : String) (r : BroadcastReply) : List Effect :=
  if registryAddr = addressZero then
    [uiLifecycle "CHAIN_SYNC: paused_contract_not_configured" (some "degraded")]
  else
    [uiLifecycle ("CHAIN_SYNC: initiating_tx [" ++ action ++ "] -> " ++ substr registryAddr 0 8 ++
        "...") none,
     Effect.ledger LedgerCall.getNetwork] ++
    match r.getNetwork with
    | Reply.threw _ =>
      [uiLifecycle "CHAIN_SYNC: paused_rpc_unreachable // network:monad" (some "degraded")]
    | Reply.ok _ =>
      let agentId := substr id 0 31
      if agentId.utf8ByteSize > 31 then
        broadcastCatch { code := none, message := "bytes32 string must be less than 32 bytes" }
      else if action = "SPAWN" then
        broadcastTx (LedgerCall.estimateGasRegister agentId) (LedgerCall.registerAgent agentId) r
      else if action = "KILL" then
        broadcastTx (LedgerCall.estimateGasDeregister agentId) (LedgerCall.deregisterAgent agentId) r
      else []

/-! ## Lifecycle controller -/

/-- The method `requestSpawn(id, type)`, run against the ledger replies `r`. -/
def requestSpawn (s : State) (id type : String) (r : BroadcastReply) : State :=
  if mapHas s.agents id then s
  else if mapHas s.pendingTypes id then s
  else if setHas s.tombstones id then s
  else
    { s with
      pendingTypes := mapSet s.pendingTypes id type
      trace := s.trace ++ broadcastLifecycle id "SPAWN" r }

/-- The method `requestKill(id, reason)`, run against the ledger replies `r`. -/
def requestKill (s : State) (id _reason : String) (r : BroadcastReply) : State :=
  if !mapHas s.agents id then s
  else { s with trace := s.trace ++ broadcastLifecycle id "KILL" r }

/-- The expression `this.pendingTypes.get(id) || 'HUNTER'`: an absent or empty
entry gives the default. -/
def resolveType (s : State) (id : String) : String :=
  match mapGet s.pendingTypes id with
  | some t => if t = "" then "HUNTER" else t
  | none => "HUNTER"

/-- The worker `handleAgentRegistered` creates: the script is loaded and `INIT`
has been posted. -/
def newWorker (source : WorkerSource) (id : String) (blockNum : Nat) : Worker :=
  { source := source, mem := WorkerMem.loaded,
    inbox := [WorkerIn.init id (toString blockNum)], outbox := [] }

/-- The record `handleAgentRegistered` stores. -/
def newRecord (source : WorkerSource) (type id : String) (blockNum : Nat) : AgentRecord :=
  { worker := newWorker source id blockNum
    type := type
    metrics := { evalWindow := 0, outputs := 0, efficiency := 0, consecutiveFailures := 0,
                 maxSilence := none, maxLife := none }
    pendingExec := none }

/-- The body of `handleAgentRegistered` after the script has been selected. -/
def spawnConfirmed (s : State) (source : WorkerSource) (type id : String) (blockNum : Nat) :
    State :=
  { s with
    agents := mapSet s.agents id (newRecord source type id blockNum)
    pendingTypes := mapDelete s.pendingTypes id
    tombstones := if setHas s.tombstones id then setDelete s.tombstones id else s.tombstones
    trace := s.trace ++
      [uiLifecycle ("META: agent_spawned_confirmed [" ++ id ++ "] // type:" ++ type ++
          " // block:" ++ toString blockNum) (some "success")] }

/-- The method `handleAgentRegistered(id, blockNum)`. -/
def handleAgentRegistered (s : State) (id : String) (blockNum : Nat) : State :=
  if mapHas s.agents id then s
  else
    let type := resolveType s id
    if type = "HUNTER" then spawnConfirmed s WorkerSource.hunter type id blockNum
    else if type = "CRISIS" then spawnConfirmed s WorkerSource.crisis type id blockNum
    else s

/-- The method `handleAgentDeregistered(id, blockNum)`. -/
def handleAgentDeregistered (s : State) (id : String) (blockNum : Nat) : State :=
  match mapGet s.agents id with
  | some _ =>
    { s with
      agents := mapDelete s.agents id
      tombstones := setAdd s.tombstones id
      trace := s.trace ++
        [Effect.terminate id,
         uiLifecycle ("META: agent_terminated_confirmed [" ++ id ++ "] // block:" ++
            toString blockNum) (some "degraded")] }
  | none => s

/-- The method `handleWorkerMessage(id, data)`. -/
def handleWorkerMessage (s : State) (id : String) (data : WorkerOut) : State :=
  match mapGet s.agents id with
  | none => s
  | some agent =>
    match data with
    | WorkerOut.decision d =>
      let s1 : State :=
        { s with trace := s.trace ++
            [Effect.ui { type := d.type, message := d.message, state := none, cid := some d.cid,
                         hash := none }] }
      if d.action = "EXECUTE" then
        { s1 with agents := mapSet s1.agents id { agent with pendingExec := some d } }
      else s1
    | WorkerOut.metrics m =>
      { s with agents := mapSet s.agents id { agent with metrics := agent.metrics.merge m } }

/-! ## Control loop: `checkChain` -/

/-- What `rpcCall` gives back: the fetch threw; `null` (non-200 status, RPC
error or invalid JSON); or the parsed reply, whose `result` may be missing. -/
inductive RpcReply (α : Type)
  | threw
  | null
  | data (result : Option α)

/-- Outcome of one `checkChain`: the state it leaves, the argument of the
`processBlock` call it made (if any), and whether it threw. -/
structure CheckChainResult where
  state : State
  pipeline : Option JSNum
  threw : Bool
  deriving DecidableEq

/-- The method `checkChain()` against the reply to `eth_blockNumber`. -/
def checkChain (s : State) (heightRes : RpcReply String) : CheckChainResult :=
  match heightRes with
  | RpcReply.threw => { state := s, pipeline := none, threw := true }
  | RpcReply.null => { state := s, pipeline := none, threw := false }
  | RpcReply.data none => { state := s, pipeline := none, threw := false }
  | RpcReply.data (some result) =>
    if result = "" then { state := s, pipeline := none, threw := false }
    else
      let currentHeight := parseInt16 result
      if JSNum.le currentHeight s.lastBlock && !JSNum.strictEq s.lastBlock (JSNum.int 0) then
        { state := s, pipeline := none, threw := false }
      else if JSNum.strictEq s.lastBlock (JSNum.int 0) then
        { state :=
            { s with
              lastBlock := currentHeight
              trace := s.trace ++
                [Effect.ui { type := "system"
                             message := "SYNCED: head_at_block_" ++ currentHeight.toStr
                             state := none, cid := none, hash := none }] }
          pipeline := none, threw := false }
      else
        { state := { s with lastBlock := currentHeight }
          pipeline := some currentHeight, threw := false }

/-! ## Block pipeline: `processBlock` -/

/-- The fields of `blockRes.result` that `processBlock` reads. -/
structure BlockData where
  hash : String
  gasUsed : String
  deriving DecidableEq, Repr

/-- The constant `GAS_THRESHOLD` local to `processBlock`. -/
def processBlock.GAS_THRESHOLD : Int := 4000000

/-- The constant `SPAWN_COOLDOWN` of `processBlock`. -/
def processBlock.SPAWN_COOLDOWN : Int := 5

/-- The statement `if (!this.lastSpawnBlock) this.lastSpawnBlock = 0`. -/
def cooldownBase (lastSpawnBlock : Option JSNum) : JSNum :=
  match lastSpawnBlock with
  | some v => if v.truthy then v else JSNum.int 0
  | none => JSNum.int 0

/-- Step 1 of `processBlock`: the observation event. -/
def observation (s : State) (number : JSNum) (block : BlockData) : State :=
  { s with trace := s.trace ++
      [Effect.ui { type := "observation"
                   message := "BLOCK: " ++ number.toStr ++ " // agents_active:" ++
                     toString s.agents.length ++ " // gas:" ++ (parseInt16 block.gasUsed).toStr
                   state := some "success"
                   cid := some (substr block.hash 2 8)
                   hash := none }] }

/-- The text of the signal event, with `Math.floor(gasUsed / 1000000)`. -/
def signalMessage (gasUsed : JSNum) : String :=
  match gasUsed with
  | JSNum.int g => "SIGNAL: gas_spike_" ++ toString (g / 1000000) ++ "M"
  | JSNum.nan => "SIGNAL: gas_spike_NaNM"

/-- Step 2 of `processBlock`, signal detection. Returns the state it leaves and
the calls `requestSpawn(id, type)` it made, in order. Each call runs against the
ledger replies `ledger id`. -/
def signalDetection (s : State) (number gasUsed : JSNum) (ledger : String → BroadcastReply) :
    State × List (String × String) :=
  let base := cooldownBase s.lastSpawnBlock
  let s0 : State := { s with lastSpawnBlock := some base }
  let r1 : State × List (String × String) :=
    if JSNum.gt gasUsed (JSNum.int processBlock.GAS_THRESHOLD) &&
        JSNum.gt number (JSNum.add base (JSNum.int processBlock.SPAWN_COOLDOWN)) then
      let s1 : State :=
        { s0 with
          lastSpawnBlock := some number
          trace := s0.trace ++
            [Effect.ui { type := "signal", message := signalMessage gasUsed,
                         state := some "success", cid := none, hash := none }] }
      let id := "hunter_" ++ number.toStr
      (requestSpawn s1 id "HUNTER" (ledger id), [(id, "HUNTER")])
    else (s0, [])
  if JSNum.remIsZero number 9 then
    let id := "crisis_" ++ number.toStr
    (requestSpawn r1.1 id "CRISIS" (ledger id), r1.2 ++ [(id, "CRISIS")])
  else r1

/-- The execution event for an agent that holds a pending decision. -/
def executionEvent (id : String) (block : BlockData) (d : Decision) : Effect :=
  Effect.ui { type := "execution"
              message := "[" ++ id ++ "] DECISION_LOG: " ++ substr block.hash 0 12 ++ "..."
              state := some "success"
              cid := some d.cid
              hash := some block.hash }

/-- Step 3 of `processBlock`: every agent's pending decision is reported and
cleared, and every worker is sent the block with `executionFailed: false`. -/
def executionPhase (s : State) (block : BlockData) : State :=
  { s with
    agents := s.agents.map (fun p =>
      (p.1, { p.2 with
              pendingExec := none
              worker := p.2.worker.post (WorkerIn.block block.gasUsed block.hash false) }))
    trace := s.trace ++
      s.agents.filterMap (fun p => p.2.pendingExec.map (executionEvent p.1 block)) }

/-- Steps 1 to 3 of `processBlock(number)`, from the reply to
`eth_getBlockByNumber` up to the drain pause. Returns the `requestSpawn` calls
made. -/
def processBlockDispatch (s : State) (number : JSNum) (blockRes : RpcReply BlockData)
    (ledger : String → BroadcastReply) : State × List (String × String) :=
  match blockRes with
  | RpcReply.threw => (s, [])
  | RpcReply.null => (s, [])
  | RpcReply.data none => (s, [])
  | RpcReply.data (some block) =>
    let r := signalDetection (observation s number block) number (parseInt16 block.gasUsed) ledger
    (executionPhase r.1 block, r.2)

/-- Two decimal digits of a number below 100. -/
def twoDigits (n : Nat) : String :=
  if n < 10 then "0" ++ toString n else toString n

/-- JavaScript `x.toFixed(2)` computed on the exact value: the nearest multiple
of 1/100, the larger one on a tie, with a sign for a negative `x`. -/
def toFixed2 (x : ℚ) : String :=
  let n : Nat := (Rat.floor (|x| * 100 + 1 / 2)).toNat
  let body := toString (n / 100) ++ "." ++ twoDigits (n % 100)
  if x < 0 then "-" ++ body else body

/-- The assignments to `reason` in step 4 of `processBlock`, in source order;
a later assignment overwrites an earlier one. -/
def terminationReason (type : String) (m : Metrics) : Option String :=
  let r0 : Option String := none
  let r1 : Option String :=
    if type = "HUNTER" then
      let a : Option String :=
        if m.evalWindow > 15 then some "natural_lifecycle_expired" else r0
      if m.evalWindow > 10 ∧ m.efficiency < 1 / 10 then
        some ("low_efficiency_" ++ toFixed2 m.efficiency)
      else a
    else r0
  let r2 : Option String :=
    if type = "CRISIS" then
      if m.evalWindow ≥ 20 then some "crisis_lifecycle_complete" else r1
    else r1
  if m.consecutiveFailures > 0 then some "execution_fault" else r2

/-- JavaScript truthiness of `reason`: `null` and the empty string are falsy. -/
def reasonTruthy : Option String → Bool
  | some r => !(r == "")
  | none => false

/-- The body of the evaluation loop for one agent: the state it leaves and the
call `requestKill(id, reason)` it made, if any. -/
def evaluateAgent (ledger : String → BroadcastReply)
    (acc : State × List (String × String)) (p : String × AgentRecord) :
    State × List (String × String) :=
  match terminationReason p.2.type p.2.metrics with
  | none => acc
  | some reason =>
    if reasonTruthy (some reason) then
      let s1 : State :=
        { acc.1 with trace := acc.1.trace ++
            [Effect.ui { type := "evaluation"
                         message := "EVALUATION: terminating_" ++ p.1 ++ " // reason:" ++ reason
                         state := some "degraded", cid := none, hash := none }] }
      (requestKill s1 p.1 reason (ledger p.1), acc.2 ++ [(p.1, reason)])
    else acc

/-- Step 4 of `processBlock`, after the drain pause: the evaluation loop over
`this.agents`. Returns the `requestKill` calls made, in order. -/
def processBlockEvaluate (s : State) (ledger : String → BroadcastReply) :
    State × List (String × String) :=
  s.agents.foldl (evaluateAgent ledger) (s, [])

/-! ## Worker threads and message delivery -/

/-- The worker of agent `id` handles the oldest message of its inbox. -/
def workerRun (s : State) (id : String) : State :=
  match mapGet s.agents id with
  | none => s
  | some agent =>
    match agent.worker.run with
    | none => s
    | some w => { s with agents := mapSet s.agents id { agent with worker := w } }

/-- The orchestrator handles the oldest message posted by the worker of agent
`id` (`worker.onmessage`). -/
def deliver (s : State) (id : String) : State :=
  match mapGet s.agents id with
  | none => s
  | some agent =>
    match agent.worker.outbox with
    | [] => s
    | m :: rest =>
      handleWorkerMessage
        { s with agents :=
            mapSet s.agents id { agent with worker := { agent.worker with outbox := rest } } }
        id m

/-- One atomic step of the system: a method of the orchestrator run to its next
suspension point, or a step of a worker thread. -/
inductive Op
  | requestSpawn (id type : String) (r : BroadcastReply)
  | requestKill (id reason : String) (r : BroadcastReply)
  | handleAgentRegistered (id : String) (blockNum : Nat)
  | handleAgentDeregistered (id : String) (blockNum : Nat)
  | handleWorkerMessage (id : String) (data : WorkerOut)
  | checkChain (heightRes : RpcReply String)
  | processBlockDispatch (number : JSNum) (blockRes : RpcReply BlockData)
      (ledger : String → BroadcastReply)
  | processBlockEvaluate (ledger : String → BroadcastReply)
  | workerRun (id : String)
  | deliver (id : String)

/-- The state after one step. -/
def step (s : State) : Op → State
  | Op.requestSpawn id type r => requestSpawn s id type r
  | Op.requestKill id reason r => requestKill s id reason r
  | Op.handleAgentRegistered id blockNum => handleAgentRegistered s id blockNum
  | Op.handleAgentDeregistered id blockNum => handleAgentDeregistered s id blockNum
  | Op.handleWorkerMessage id data => handleWorkerMessage s id data
  | Op.checkChain heightRes => (checkChain s heightRes).state
  | Op.processBlockDispatch number blockRes ledger =>
    (processBlockDispatch s number blockRes ledger).1
  | Op.processBlockEvaluate ledger => (processBlockEvaluate s ledger).1
  | Op.workerRun id => workerRun s id
  | Op.deliver id => deliver s id

/-- The four lifecycle operations, on arbitrary identifiers and against
arbitrary ledger replies. -/
inductive LifecycleOp
  | requestSpawn (id type : String) (r : BroadcastReply)
  | requestKill (id reason : String) (r : BroadcastReply)
  | handleAgentRegistered (id : String) (blockNum : Nat)
  | handleAgentDeregistered (id : String) (blockNum : Nat)

/-- The state after one lifecycle operation. -/
def LifecycleOp.apply (s : State) : LifecycleOp → State
  | LifecycleOp.requestSpawn id type r => MetaAgentFactory.requestSpawn s id type r
  | LifecycleOp.requestKill id reason r => MetaAgentFactory.requestKill s id reason r
  | LifecycleOp.handleAgentRegistered id blockNum =>
    MetaAgentFactory.handleAgentRegistered s id blockNum
  | LifecycleOp.handleAgentDeregistered id blockNum =>
    MetaAgentFactory.handleAgentDeregistered s id blockNum

/-- States reachable from the constructor's state by lifecycle operations. -/
inductive Reachable : State → Prop
  | init : Reachable State.init
  | step (s : State) (op : LifecycleOp) : Reachable s → Reachable (op.apply s)

/-! ## Reference policy and concrete inputs -/

/-- The termination policy in the words of the specification, as a
priority-ordered function of variant and metrics: fault eviction first, then for
HUNTER low-value pruning before natural expiry, then the CRISIS lifetime. -/
def referencePolicy (type : String) (m : Metrics) : Option String :=
  if m.consecutiveFailures > 0 then some "execution_fault"
  else if type = "HUNTER" then
    if m.evalWindow > 10 ∧ m.efficiency < 1 / 10 then
      some ("low_efficiency_" ++ toFixed2 m.efficiency)
    else if m.evalWindow > 15 then some "natural_lifecycle_expired"
    else none
  else if type = "CRISIS" then
    if m.evalWindow ≥ 20 then some "crisis_lifecycle_complete" else none
  else none

/-- Ledger replies of a broadcast that goes through: estimate 21000, a
transaction hash, a receipt. -/
def replyConfirmed : BroadcastReply :=
  { getNetwork := Reply.ok ()
    estimateGas := Reply.ok 21000
    send := Reply.ok (some "0xabc")
    wait := Reply.ok { blockNumber := 7, gasUsed := 21000 } }

/-- An identifier is in at most one of the agents map, the pending-request map
and the tombstone set. -/
def Exclusive (s : State) : Prop :=
  ∀ id : String,
    ¬ (mapHas s.agents id = true ∧ mapHas s.pendingTypes id = true) ∧
    ¬ (mapHas s.agents id = true ∧ setHas s.tombstones id = true) ∧
    ¬ (mapHas s.pendingTypes id = true ∧ setHas s.tombstones id = true)

/-- Number of records the agents map holds for an identifier. -/
def recordCount (s : State) (id : String) : Nat :=
  (s.agents.filter (fun p => p.1 == id)).length

/-- A session in which `hunter_7` was confirmed spawned and then confirmed
killed. -/
def tombstonedSession : State :=
  handleAgentDeregistered (handleAgentRegistered State.init "hunter_7" 7) "hunter_7" 9

/-- A session in which a spawn was requested with a variant the orchestrator
has no script for. -/
def scoutRequested : State :=
  requestSpawn State.init "scout_1" "SCOUT" replyConfirmed

/-- A session in which a spawn of `probe_2` was requested with the variant
`PROBE`. -/
def probeRequested : State :=
  requestSpawn State.init "probe_2" "PROBE" replyConfirmed

/-- A session in which the spawn of `hunter_12` has been requested and is not
confirmed yet. -/
def spawnPending : State :=
  requestSpawn State.init "hunter_12" "HUNTER" replyConfirmed

/-- A session in which `crisis_9` is active. -/
def crisisActive : State :=
  handleAgentRegistered (requestSpawn State.init "crisis_9" "CRISIS" replyConfirmed) "crisis_9" 10

/-- A session whose first height read returned block 100 (`0x64`). -/
def syncedAt100 : State :=
  (checkChain State.init (RpcReply.data (some "0x64"))).state

/-- Number of `METRICS` messages in a list of worker messages. -/
def metricsCount (out : List WorkerOut) : Nat :=
  (out.filter WorkerOut.isMetrics).length

/-- Number of `DECISION` messages in a list of worker messages. -/
def decisionCount (out : List WorkerOut) : Nat :=
  (out.filter WorkerOut.isDecision).length

/-! ## Broadcast failures, worker runs and pipeline-driven executions -/

/-- Ledger replies of a broadcast whose gas estimate is 600000, above the
safety threshold. -/
def replyGasAbort : BroadcastReply :=
  { getNetwork := Reply.ok ()
    estimateGas := Reply.ok 600000
    send := Reply.ok (some "0xabc")
    wait := Reply.ok { blockNumber := 7, gasUsed := 21000 } }

/-- Ledger replies of a broadcast that cannot reach the RPC endpoint. -/
def replyUnreachable : BroadcastReply :=
  { getNetwork := Reply.threw { code := some "NETWORK_ERROR", message := "could not detect network" }
    estimateGas := Reply.threw { code := some "NETWORK_ERROR", message := "missing response" }
    send := Reply.threw { code := some "NETWORK_ERROR", message := "missing response" }
    wait := Reply.threw { code := some "NETWORK_ERROR", message := "missing response" } }

/-- A ledger call `registerAgent`, whatever its argument. -/
def Effect.isRegisterAgent : Effect → Bool
  | Effect.ledger (LedgerCall.registerAgent _) => true
  | _ => false

/-- An initialised HUNTER worker handles a sequence of messages, oldest first:
its final state and everything it posted, in order. -/
def hunterRun (st : HunterState) : List WorkerIn → HunterState × List WorkerOut
  | [] => (st, [])
  | m :: ms =>
    let r := hunterOnMessage st m
    let r2 := hunterRun r.1 ms
    (r2.1, r.2 ++ r2.2)

/-- The `BLOCK` messages the execution phase posts for a sequence of blocks:
`executionFailed` is `false` in each. -/
def dispatched (blocks : List BlockData) : List WorkerIn :=
  blocks.map (fun b => WorkerIn.block b.gasUsed b.hash false)

/-- The `BLOCK` messages for a sequence of blocks, each with the failure flag
it is sent with. -/
def posted (blocks : List (BlockData × Bool)) : List WorkerIn :=
  blocks.map (fun b => WorkerIn.block b.1.gasUsed b.1.hash b.2)

/-- The orchestrator handles a sequence of messages posted by the worker of
agent `id`, oldest first. -/
def handleWorkerMessages (s : State) (id : String) (out : List WorkerOut) : State :=
  out.foldl (fun t o => handleWorkerMessage t id o) s

/-- A session in which `hunter_106` is active. -/
def hunterActive : State :=
  handleAgentRegistered (requestSpawn State.init "hunter_106" "HUNTER" replyConfirmed)
    "hunter_106" 107

/-- A block with usage 2,000,000. -/
def quietBlock : BlockData :=
  { hash := "0x00000000000000aa", gasUsed := "0x1e8480" }

/-- A block with usage 0. -/
def emptyBlock : BlockData :=
  { hash := "0x00000000000000bb", gasUsed := "0x0" }

/-- Steps in which `handleWorkerMessage` runs only as the `onmessage` handler
of a worker (`deliver`), never with a message made up from outside. -/
def Op.driven : Op → Bool
  | Op.handleWorkerMessage _ _ => false
  | _ => true

/-- States reachable from the constructor's state when every worker is driven
only by the orchestrator. -/
inductive PipelineReachable : State → Prop
  | init : PipelineReachable State.init
  | next (s : State) (op : Op) :
      op.driven = true → PipelineReachable s → PipelineReachable (MetaAgentFactory.step s op)

/-- A message to a worker that carries no failure flag. -/
def WorkerIn.noFailure : WorkerIn → Bool
  | WorkerIn.init _ _ => true
  | WorkerIn.block _ _ executionFailed => !executionFailed

/-- A `METRICS` message reports no failure: `consecutiveFailures` is absent
or 0. A `DECISION` message reports none either. -/
def WorkerOut.noFailure : WorkerOut → Bool
  | WorkerOut.metrics m => m.consecutiveFailures == none || m.consecutiveFailures == some 0
  | WorkerOut.decision _ => true

/-- The memory of a worker belongs to its script and counts no failure. -/
def WorkerMem.noFailure (source : WorkerSource) : WorkerMem → Bool
  | WorkerMem.loaded => true
  | WorkerMem.hunter st => source == WorkerSource.hunter && st.consecutiveFailures == 0
  | WorkerMem.crisis _ => source == WorkerSource.crisis

/-- A worker that has seen no failure flag: none in its inbox, none counted in
its memory, none reported in its outbox; and, for a CRISIS worker, no `DECISION`
in its outbox. -/
def Worker.noFailure (w : Worker) : Bool :=
  w.inbox.all WorkerIn.noFailure &&
  w.mem.noFailure w.source &&
  w.outbox.all WorkerOut.noFailure &&
  (w.source == WorkerSource.hunter || w.outbox.all (fun o => !o.isDecision))

/-- No record and no worker of the session has seen or counted a failure. -/
def FaultFree (s : State) : Prop :=
  ∀ p ∈ s.agents, p.2.worker.noFailure = true ∧ p.2.metrics.consecutiveFailures = 0

/-- A session after two pipeline cycles over `hunterActive`: the worker handled
`INIT` and both dispatched blocks, and its report was delivered. -/
def afterTwoCycles : State :=
  step (step (step (step (step (step hunterActive
    (Op.processBlockDispatch (JSNum.int 108) (RpcReply.data (some quietBlock))
      (fun _ => replyConfirmed)))
    (Op.workerRun "hunter_106"))
    (Op.workerRun "hunter_106"))
    (Op.processBlockDispatch (JSNum.int 109) (RpcReply.data (some quietBlock))
      (fun _ => replyConfirmed)))
    (Op.workerRun "hunter_106"))
    (Op.deliver "hunter_106")

/-- A block with usage 4,500,000. -/
def spikeBlock : BlockData :=
  { hash := "0x00000000000000cc", gasUsed := "0x44aa20" }

/-- A session that took block 100 as baseline and ran the pipeline for block
106 with usage 4,500,000: `hunter_106` was requested and `lastSpawnBlock` is
106. -/
def afterSpike106 : State :=
  (processBlockDispatch (checkChain syncedAt100 (RpcReply.data (some "0x6a"))).state
    (JSNum.int 106) (RpcReply.data (some spikeBlock)) (fun _ => replyConfirmed)).1

/-! ## Lemmas on maps and sets -/

theorem mapHas_iff {β : Type} (m : List (String × β)) (k : String) :
    mapHas m k = true ↔ k ∈ m.map Prod.fst := by
  simp only [mapHas, List.any_eq_true, List.mem_map, beq_iff_eq]

theorem setHas_iff (m : List String) (k : String) : setHas m k = true ↔ k ∈ m := by
  simp only [setHas, List.any_eq_true, beq_iff_eq]
  constructor
  · rintro ⟨p, hp, rfl⟩; exact hp
  · intro h; exact ⟨k, h, rfl⟩

theorem keys_mapSet {β : Type} (m : List (String × β)) (k : String) (v : β) :
    (mapSet m k v).map Prod.fst =
      if mapHas m k = true then m.map Prod.fst else m.map Prod.fst ++ [k] := by
  unfold mapSet
  by_cases h : mapHas m k = true
  · rw [if_pos h, if_pos h, List.map_map]
    apply List.map_congr_left
    intro p _
    by_cases hp : p.1 = k
    · simp [hp]
    · simp [hp]
  · rw [if_neg h, if_neg h]; simp

theorem keys_mapDelete {β : Type} (m : List (String × β)) (k : String) :
    (mapDelete m k).map Prod.fst = (m.map Prod.fst).filter (fun a => !(a == k)) := by
  induction m with
  | nil => rfl
  | cons a t ih =>
    simp only [mapDelete, List.map_cons] at ih ⊢
    by_cases ha : a.1 = k
    · simp [List.filter_cons, ha, ih]
    · simp [List.filter_cons, ha, ih]

theorem mapHas_mapSet {β : Type} (m : List (String × β)) (k k2 : String) (v : β) :
    mapHas (mapSet m k v) k2 = true ↔ (mapHas m k2 = true ∨ k2 = k) := by
  rw [mapHas_iff, keys_mapSet]
  by_cases h : mapHas m k = true
  · rw [if_pos h, mapHas_iff]
    constructor
    · intro h2; exact Or.inl h2
    · rintro (h2 | rfl)
      · exact h2
      · exact (mapHas_iff m k2).1 h
  · rw [if_neg h, mapHas_iff]; simp

theorem mapHas_mapDelete {β : Type} (m : List (String × β)) (k k2 : String) :
    mapHas (mapDelete m k) k2 = true ↔ (mapHas m k2 = true ∧ k2 ≠ k) := by
  rw [mapHas_iff, keys_mapDelete, mapHas_iff]
  simp [List.mem_filter]

theorem setHas_setAdd (m : List String) (k k2 : String) :
    setHas (setAdd m k) k2 = true ↔ (setHas m k2 = true ∨ k2 = k) := by
  unfold setAdd
  by_cases h : setHas m k = true
  · rw [if_pos h]
    constructor
    · intro h2; exact Or.inl h2
    · rintro (h2 | rfl)
      · exact h2
      · exact h
  · rw [if_neg h, setHas_iff, setHas_iff]; simp

theorem setHas_setDelete (m : List String) (k k2 : String) :
    setHas (setDelete m k) k2 = true ↔ (setHas m k2 = true ∧ k2 ≠ k) := by
  rw [setHas_iff, setHas_iff]
  simp [setDelete, List.mem_filter]

theorem mapHas_eq_isSome {β : Type} (m : List (String × β)) (k : String) :
    mapHas m k = (mapGet m k).isSome := by
  induction m with
  | nil => rfl
  | cons a t ih =>
    simp only [mapHas, mapGet, List.any_cons, List.find?_cons] at ih ⊢
    by_cases ha : (a.1 == k) = true
    · simp [ha]
    · simp only [Bool.not_eq_true] at ha
      simp [ha, ih]

theorem mapGet_eq_none {β : Type} (m : List (String × β)) (k : String) :
    mapGet m k = none ↔ mapHas m k = false := by
  rw [mapHas_eq_isSome]
  cases mapGet m k <;> simp

theorem mapGet_append_new {β : Type} (m : List (String × β)) (k : String) (v : β)
    (h : mapHas m k = false) : mapGet (m ++ [(k, v)]) k = some v := by
  induction m with
  | nil => simp [mapGet]
  | cons a t ih =>
    simp only [mapHas, List.any_cons, Bool.or_eq_false_iff] at h
    have ht : mapHas t k = false := h.2
    have := ih ht
    simp only [mapGet, List.cons_append, List.find?_cons, h.1] at this ⊢
    exact this

theorem mapGet_mapSet_new {β : Type} (m : List (String × β)) (k : String) (v : β)
    (h : mapHas m k = false) : mapGet (mapSet m k v) k = some v := by
  unfold mapSet
  rw [h]
  simpa using mapGet_append_new m k v h

theorem mapGet_append_other {β : Type} (m : List (String × β)) (k k2 : String) (v : β)
    (h : k2 ≠ k) : mapGet (m ++ [(k, v)]) k2 = mapGet m k2 := by
  have hk : (k == k2) = false := by simpa using fun e : k = k2 => h e.symm
  induction m with
  | nil => simp [mapGet, hk]
  | cons a t ih =>
    simp only [mapGet, List.cons_append, List.find?_cons] at ih ⊢
    by_cases ha : (a.1 == k2) = true
    · simp [ha]
    · simp only [Bool.not_eq_true] at ha
      simp only [ha]
      exact ih

theorem mapGet_mapSet_other {β : Type} (m : List (String × β)) (k k2 : String) (v : β)
    (h : k2 ≠ k) : mapGet (mapSet m k v) k2 = mapGet m k2 := by
  unfold mapSet
  by_cases hm : mapHas m k = true
  · rw [if_pos hm]
    clear hm
    induction m with
    | nil => rfl
    | cons a t ih =>
      simp only [mapGet, List.map_cons, List.find?_cons] at ih ⊢
      by_cases ha : a.1 = k
      · have h1 : (k == k2) = false := by simpa using fun e : k = k2 => h e.symm
        have h2 : (a.1 == k2) = false := by rw [ha]; exact h1
        simp only [ha, beq_self_eq_true, if_true, h1] at ih ⊢
        exact ih
      · have h1 : (a.1 == k) = false := by simpa using ha
        simp only [h1] at ih ⊢
        by_cases h3 : (a.1 == k2) = true
        · simp [h3]
        · simp only [Bool.not_eq_true] at h3
          simp only [h3, Bool.false_eq_true, if_false]
          exact ih
  · rw [if_neg hm]
    exact mapGet_append_other m k k2 v h

theorem mapGet_mapDelete_other {β : Type} (m : List (String × β)) (k k2 : String)
    (h : k2 ≠ k) : mapGet (mapDelete m k) k2 = mapGet m k2 := by
  induction m with
  | nil => rfl
  | cons a t ih =>
    simp only [mapGet, mapDelete, List.filter_cons, List.find?_cons] at ih ⊢
    by_cases ha : a.1 = k
    · have h2 : (a.1 == k2) = false := by
        rw [ha]; simpa using fun e : k = k2 => h e.symm
      simp only [ha, beq_self_eq_true, Bool.not_true, Bool.false_eq_true, if_false] at ih ⊢
      rw [ha] at h2
      simp only [h2]
      exact ih
    · have h1 : (a.1 == k) = false := by simpa using ha
      simp only [h1, Bool.not_false, if_true, List.find?_cons]
      by_cases h3 : (a.1 == k2) = true
      · simp [h3]
      · simp only [Bool.not_eq_true] at h3
        simp only [h3]
        exact ih

theorem mapHas_mapSet_same {β : Type} (m : List (String × β)) (k k2 : String) (v : β)
    (h : mapHas m k = true) : mapHas (mapSet m k v) k2 = mapHas m k2 := by
  rw [Bool.eq_iff_iff, mapHas_mapSet]
  constructor
  · rintro (h2 | rfl)
    · exact h2
    · exact h
  · intro h2; exact Or.inl h2

theorem mapHas_of_mapGet {β : Type} (m : List (String × β)) (k : String) (v : β)
    (h : mapGet m k = some v) : mapHas m k = true := by
  rw [mapHas_eq_isSome, h]; rfl

theorem filter_key_of_not_has {β : Type} (m : List (String × β)) (k : String)
    (h : mapHas m k = false) : m.filter (fun p => p.1 == k) = [] := by
  rw [List.filter_eq_nil_iff]
  intro p hp hk
  have : mapHas m k = true := by
    simp only [mapHas, List.any_eq_true]
    exact ⟨p, hp, hk⟩
  rw [h] at this
  exact Bool.false_ne_true this

/-! ## Frame lemmas of the lifecycle operations -/

theorem requestSpawn_agents (s : State) (id type : String) (r : BroadcastReply) :
    (requestSpawn s id type r).agents = s.agents := by
  unfold requestSpawn; split_ifs <;> rfl

theorem requestSpawn_tombstones (s : State) (id type : String) (r : BroadcastReply) :
    (requestSpawn s id type r).tombstones = s.tombstones := by
  unfold requestSpawn; split_ifs <;> rfl

theorem requestSpawn_lastSpawnBlock (s : State) (id type : String) (r : BroadcastReply) :
    (requestSpawn s id type r).lastSpawnBlock = s.lastSpawnBlock := by
  unfold requestSpawn; split_ifs <;> rfl

theorem requestKill_agents (s : State) (id reason : String) (r : BroadcastReply) :
    (requestKill s id reason r).agents = s.agents := by
  unfold requestKill; split_ifs <;> rfl

theorem requestKill_tombstones (s : State) (id reason : String) (r : BroadcastReply) :
    (requestKill s id reason r).tombstones = s.tombstones := by
  unfold requestKill; split_ifs <;> rfl

theorem requestKill_pendingTypes (s : State) (id reason : String) (r : BroadcastReply) :
    (requestKill s id reason r).pendingTypes = s.pendingTypes := by
  unfold requestKill; split_ifs <;> rfl

theorem handleAgentRegistered_of_has (s : State) (id : String) (b : Nat)
    (h : mapHas s.agents id = true) : handleAgentRegistered s id b = s := by
  unfold handleAgentRegistered; rw [if_pos h]

theorem handleAgentRegistered_cases (s : State) (id : String) :
    (∀ b, handleAgentRegistered s id b = s) ∨
    (mapHas s.agents id = false ∧
      ∃ src, ∀ b, handleAgentRegistered s id b = spawnConfirmed s src (resolveType s id) id b) := by
  unfold handleAgentRegistered
  by_cases h : mapHas s.agents id = true
  · left; intro b; rw [if_pos h]
  · have hf : mapHas s.agents id = false := by simpa using h
    by_cases h1 : resolveType s id = "HUNTER"
    · right; exact ⟨hf, WorkerSource.hunter, fun b => by simp [hf, h1]⟩
    · by_cases h2 : resolveType s id = "CRISIS"
      · right; exact ⟨hf, WorkerSource.crisis, fun b => by simp [hf, h2]⟩
      · left; intro b; simp [h1, h2]

theorem handleAgentDeregistered_cases (s : State) (id : String) (b : Nat) :
    (mapHas s.agents id = false ∧ handleAgentDeregistered s id b = s) ∨
    (mapHas s.agents id = true ∧
      handleAgentDeregistered s id b =
        { s with
          agents := mapDelete s.agents id
          tombstones := setAdd s.tombstones id
          trace := s.trace ++
            [Effect.terminate id,
             uiLifecycle ("META: agent_terminated_confirmed [" ++ id ++ "] // block:" ++
                toString b) (some "degraded")] }) := by
  unfold handleAgentDeregistered
  cases hg : mapGet s.agents id with
  | none => left; exact ⟨(mapGet_eq_none _ _).1 hg, rfl⟩
  | some a => right; exact ⟨mapHas_of_mapGet _ _ _ hg, rfl⟩

theorem handleWorkerMessage_keys (s : State) (id : String) (data : WorkerOut) (k : String) :
    mapHas (handleWorkerMessage s id data).agents k = mapHas s.agents k := by
  unfold handleWorkerMessage
  cases hg : mapGet s.agents id with
  | none => rfl
  | some a =>
    have hh := mapHas_of_mapGet _ _ _ hg
    cases data with
    | decision d =>
      by_cases hd : d.action = "EXECUTE"
      · simp only [hd, if_true]; exact mapHas_mapSet_same _ _ _ _ hh
      · simp only [hd, if_false]
    | metrics m => exact mapHas_mapSet_same _ _ _ _ hh

theorem checkChain_agents (s : State) (heightRes : RpcReply String) :
    (checkChain s heightRes).state.agents = s.agents := by
  unfold checkChain
  cases heightRes with
  | threw => rfl
  | null => rfl
  | data result =>
    cases result with
    | none => rfl
    | some r => simp only; split_ifs <;> rfl

theorem signalDetection_agents (s : State) (number gasUsed : JSNum)
    (ledger : String → BroadcastReply) :
    (signalDetection s number gasUsed ledger).1.agents = s.agents := by
  unfold signalDetection
  simp only
  split_ifs <;> simp [requestSpawn_agents]

theorem executionPhase_keys (s : State) (block : BlockData) (k : String) :
    mapHas (executionPhase s block).agents k = mapHas s.agents k := by
  simp [executionPhase, mapHas, List.any_map, Function.comp_def]

theorem processBlockDispatch_keys (s : State) (number : JSNum) (blockRes : RpcReply BlockData)
    (ledger : String → BroadcastReply) (k : String) :
    mapHas (processBlockDispatch s number blockRes ledger).1.agents k = mapHas s.agents k := by
  unfold processBlockDispatch
  cases blockRes with
  | threw => rfl
  | null => rfl
  | data result =>
    cases result with
    | none => rfl
    | some block =>
      simp only [executionPhase_keys, signalDetection_agents]
      rfl

theorem evaluateAgent_agents (ledger : String → BroadcastReply)
    (acc : State × List (String × String)) (p : String × AgentRecord) :
    (evaluateAgent ledger acc p).1.agents = acc.1.agents := by
  unfold evaluateAgent
  cases terminationReason p.2.type p.2.metrics with
  | none => rfl
  | some reason =>
    simp only
    split_ifs
    · simp [requestKill_agents]
    · rfl

theorem foldl_evaluateAgent_agents (ledger : String → BroadcastReply)
    (l : List (String × AgentRecord)) (acc : State × List (String × String)) :
    (l.foldl (evaluateAgent ledger) acc).1.agents = acc.1.agents := by
  induction l generalizing acc with
  | nil => rfl
  | cons a t ih => rw [List.foldl_cons, ih, evaluateAgent_agents]

theorem processBlockEvaluate_agents (s : State) (ledger : String → BroadcastReply) :
    (processBlockEvaluate s ledger).1.agents = s.agents := by
  unfold processBlockEvaluate; rw [foldl_evaluateAgent_agents]

theorem workerRun_keys (s : State) (id k : String) :
    mapHas (workerRun s id).agents k = mapHas s.agents k := by
  unfold workerRun
  cases hg : mapGet s.agents id with
  | none => rfl
  | some a =>
    dsimp only
    cases a.worker.run with
    | none => rfl
    | some w => exact mapHas_mapSet_same _ _ _ _ (mapHas_of_mapGet _ _ _ hg)

theorem deliver_keys (s : State) (id k : String) :
    mapHas (deliver s id).agents k = mapHas s.agents k := by
  unfold deliver
  cases hg : mapGet s.agents id with
  | none => rfl
  | some a =>
    dsimp only
    cases a.worker.outbox with
    | nil => rfl
    | cons m rest =>
      dsimp only
      rw [handleWorkerMessage_keys]
      exact mapHas_mapSet_same _ _ _ _ (mapHas_of_mapGet _ _ _ hg)

theorem handleAgentRegistered_hunter (s : State) (id : String) (b : Nat)
    (h : mapHas s.agents id = false) (ht : resolveType s id = "HUNTER") :
    handleAgentRegistered s id b = spawnConfirmed s WorkerSource.hunter "HUNTER" id b := by
  unfold handleAgentRegistered
  simp [h, ht]

theorem handleAgentRegistered_crisis (s : State) (id : String) (b : Nat)
    (h : mapHas s.agents id = false) (ht : resolveType s id = "CRISIS") :
    handleAgentRegistered s id b = spawnConfirmed s WorkerSource.crisis "CRISIS" id b := by
  unfold handleAgentRegistered
  simp [h, ht]

theorem handleAgentRegistered_known (s : State) (id : String) (b : Nat)
    (h : mapHas s.agents id = false)
    (ht : resolveType s id = "HUNTER" ∨ resolveType s id = "CRISIS") :
    ∃ src, handleAgentRegistered s id b = spawnConfirmed s src (resolveType s id) id b := by
  rcases ht with ht | ht
  · exact ⟨WorkerSource.hunter, by rw [handleAgentRegistered_hunter s id b h ht, ht]⟩
  · exact ⟨WorkerSource.crisis, by rw [handleAgentRegistered_crisis s id b h ht, ht]⟩

theorem setHas_clear (t : List String) (id k : String) :
    setHas (if setHas t id = true then setDelete t id else t) k = true ↔
      (setHas t k = true ∧ k ≠ id) := by
  by_cases h : setHas t id = true
  · rw [if_pos h, setHas_setDelete]
  · rw [if_neg h]
    constructor
    · intro hk
      refine ⟨hk, ?_⟩
      rintro rfl
      exact h hk
    · intro hk; exact hk.1

theorem foldl_handleAgentRegistered_of_has (hs : List Nat) (s : State) (id : String)
    (h : mapHas s.agents id = true) :
    hs.foldl (fun t b => handleAgentRegistered t id b) s = s := by
  induction hs with
  | nil => rfl
  | cons b t ih => rw [List.foldl_cons, handleAgentRegistered_of_has s id b h, ih]

theorem foldl_handleAgentRegistered_after (hs : List Nat) (s : State) (id : String) (h1 : Nat) :
    hs.foldl (fun t b => handleAgentRegistered t id b) (handleAgentRegistered s id h1) =
      handleAgentRegistered s id h1 := by
  rcases handleAgentRegistered_cases s id with h | ⟨_, src, h⟩
  · rw [h h1]
    induction hs with
    | nil => rfl
    | cons b t ih => rw [List.foldl_cons, h b, ih]
  · apply foldl_handleAgentRegistered_of_has
    rw [h h1]
    simp only [spawnConfirmed]
    exact (mapHas_mapSet _ _ _ _).2 (Or.inr rfl)

/-! ## Lifecycle exclusivity is preserved -/

theorem exclusive_init : Exclusive State.init := by
  intro id
  simp [State.init, mapHas, setHas]

theorem exclusive_requestSpawn (s : State) (id type : String) (r : BroadcastReply)
    (hs : Exclusive s) : Exclusive (requestSpawn s id type r) := by
  unfold requestSpawn
  by_cases h1 : mapHas s.agents id = true
  · rw [if_pos h1]; exact hs
  · rw [if_neg h1]
    by_cases h2 : mapHas s.pendingTypes id = true
    · rw [if_pos h2]; exact hs
    · rw [if_neg h2]
      by_cases h3 : setHas s.tombstones id = true
      · rw [if_pos h3]; exact hs
      · rw [if_neg h3]
        intro k
        obtain ⟨e1, e2, e3⟩ := hs k
        refine ⟨?_, e2, ?_⟩
        · rintro ⟨ha, hp⟩
          rcases (mapHas_mapSet _ _ _ _).1 hp with hp | rfl
          · exact e1 ⟨ha, hp⟩
          · exact h1 ha
        · rintro ⟨hp, ht⟩
          rcases (mapHas_mapSet _ _ _ _).1 hp with hp | rfl
          · exact e3 ⟨hp, ht⟩
          · exact h3 ht

theorem exclusive_requestKill (s : State) (id reason : String) (r : BroadcastReply)
    (hs : Exclusive s) : Exclusive (requestKill s id reason r) := by
  intro k
  rw [requestKill_agents, requestKill_tombstones, requestKill_pendingTypes]
  exact hs k

theorem exclusive_spawnConfirmed (s : State) (src : WorkerSource) (type id : String) (b : Nat)
    (hs : Exclusive s) : Exclusive (spawnConfirmed s src type id b) := by
  intro k
  obtain ⟨e1, e2, e3⟩ := hs k
  simp only [spawnConfirmed]
  refine ⟨?_, ?_, ?_⟩
  · rintro ⟨ha, hp⟩
    have hp2 := (mapHas_mapDelete _ _ _).1 hp
    rcases (mapHas_mapSet _ _ _ _).1 ha with ha | rfl
    · exact e1 ⟨ha, hp2.1⟩
    · exact hp2.2 rfl
  · rintro ⟨ha, ht⟩
    have ht2 := (setHas_clear _ _ _).1 ht
    rcases (mapHas_mapSet _ _ _ _).1 ha with ha | rfl
    · exact e2 ⟨ha, ht2.1⟩
    · exact ht2.2 rfl
  · rintro ⟨hp, ht⟩
    exact e3 ⟨((mapHas_mapDelete _ _ _).1 hp).1, ((setHas_clear _ _ _).1 ht).1⟩

theorem exclusive_handleAgentRegistered (s : State) (id : String) (b : Nat)
    (hs : Exclusive s) : Exclusive (handleAgentRegistered s id b) := by
  rcases handleAgentRegistered_cases s id with h | ⟨_, src, h⟩
  · rw [h b]; exact hs
  · rw [h b]; exact exclusive_spawnConfirmed s src _ id b hs

theorem exclusive_handleAgentDeregistered (s : State) (id : String) (b : Nat)
    (hs : Exclusive s) : Exclusive (handleAgentDeregistered s id b) := by
  rcases handleAgentDeregistered_cases s id b with ⟨_, h⟩ | ⟨hhas, h⟩
  · rw [h]; exact hs
  · rw [h]
    intro k
    obtain ⟨e1, e2, e3⟩ := hs k
    refine ⟨?_, ?_, ?_⟩
    · rintro ⟨ha, hp⟩
      exact e1 ⟨((mapHas_mapDelete _ _ _).1 ha).1, hp⟩
    · rintro ⟨ha, ht⟩
      have ha2 := (mapHas_mapDelete _ _ _).1 ha
      rcases (setHas_setAdd _ _ _).1 ht with ht | rfl
      · exact e2 ⟨ha2.1, ht⟩
      · exact ha2.2 rfl
    · rintro ⟨hp, ht⟩
      rcases (setHas_setAdd _ _ _).1 ht with ht | rfl
      · exact e3 ⟨hp, ht⟩
      · exact e1 ⟨hhas, hp⟩

theorem exclusive_apply (s : State) (op : LifecycleOp) (hs : Exclusive s) :
    Exclusive (op.apply s) := by
  cases op with
  | requestSpawn id type r => exact exclusive_requestSpawn s id type r hs
  | requestKill id reason r => exact exclusive_requestKill s id reason r hs
  | handleAgentRegistered id b => exact exclusive_handleAgentRegistered s id b hs
  | handleAgentDeregistered id b => exact exclusive_handleAgentDeregistered s id b hs

/-! ## Two-phase lifecycle -/

/-- Claim C1. Two-phase lifecycle frame: whatever the ledger answers,
`requestSpawn` and `requestKill` leave the agents map and the tombstone set
unchanged; over all steps of the system, an identifier gains a record only by
`handleAgentRegistered` for that identifier and loses it only by
`handleAgentDeregistered` for that identifier. -/
theorem lifecycle_two_phase_frame (s : State) :
    (∀ (id type : String) (r : BroadcastReply),
      (requestSpawn s id type r).agents = s.agents ∧
      (requestSpawn s id type r).tombstones = s.tombstones) ∧
    (∀ (id reason : String) (r : BroadcastReply),
      (requestKill s id reason r).agents = s.agents ∧
      (requestKill s id reason r).tombstones = s.tombstones) ∧
    (∀ (op : Op) (k : String), mapHas s.agents k = false →
      mapHas (step s op).agents k = true → ∃ b, op = Op.handleAgentRegistered k b) ∧
    (∀ (op : Op) (k : String), mapHas s.agents k = true →
      mapHas (step s op).agents k = false → ∃ b, op = Op.handleAgentDeregistered k b) := by
  refine ⟨fun id type r => ⟨requestSpawn_agents s id type r, requestSpawn_tombstones s id type r⟩,
    fun id reason r => ⟨requestKill_agents s id reason r, requestKill_tombstones s id reason r⟩,
    ?_, ?_⟩
  · intro op k h0 h1
    have absurd_same : ∀ t : State, (mapHas t.agents k = mapHas s.agents k) →
        mapHas t.agents k = true → False := by
      intro t e ht
      rw [e, h0] at ht
      exact Bool.false_ne_true ht
    cases op with
    | requestSpawn id type r =>
      exact (absurd_same _ (by rw [step, requestSpawn_agents]) h1).elim
    | requestKill id reason r =>
      exact (absurd_same _ (by rw [step, requestKill_agents]) h1).elim
    | handleAgentRegistered id b =>
      simp only [step] at h1
      rcases handleAgentRegistered_cases s id with h | ⟨_, src, h⟩
      · rw [h b, h0] at h1; exact (Bool.false_ne_true h1).elim
      · rw [h b] at h1
        simp only [spawnConfirmed] at h1
        rcases (mapHas_mapSet _ _ _ _).1 h1 with h2 | rfl
        · rw [h0] at h2; exact (Bool.false_ne_true h2).elim
        · exact ⟨b, rfl⟩
    | handleAgentDeregistered id b =>
      simp only [step] at h1
      rcases handleAgentDeregistered_cases s id b with ⟨_, h⟩ | ⟨_, h⟩
      · rw [h, h0] at h1; exact (Bool.false_ne_true h1).elim
      · rw [h] at h1
        have h2 := ((mapHas_mapDelete _ _ _).1 h1).1
        rw [h0] at h2; exact (Bool.false_ne_true h2).elim
    | handleWorkerMessage id data =>
      exact (absurd_same _ (by rw [step, handleWorkerMessage_keys]) h1).elim
    | checkChain heightRes =>
      exact (absurd_same _ (by rw [step, checkChain_agents]) h1).elim
    | processBlockDispatch number blockRes ledger =>
      exact (absurd_same _ (by rw [step, processBlockDispatch_keys]) h1).elim
    | processBlockEvaluate ledger =>
      exact (absurd_same _ (by rw [step, processBlockEvaluate_agents]) h1).elim
    | workerRun id =>
      exact (absurd_same _ (by rw [step, workerRun_keys]) h1).elim
    | deliver id =>
      exact (absurd_same _ (by rw [step, deliver_keys]) h1).elim
  · intro op k h0 h1
    have absurd_same : ∀ t : State, (mapHas t.agents k = mapHas s.agents k) →
        mapHas t.agents k = false → False := by
      intro t e ht
      rw [e, h0] at ht
      exact Bool.noConfusion ht
    cases op with
    | requestSpawn id type r =>
      exact (absurd_same _ (by rw [step, requestSpawn_agents]) h1).elim
    | requestKill id reason r =>
      exact (absurd_same _ (by rw [step, requestKill_agents]) h1).elim
    | handleAgentRegistered id b =>
      simp only [step] at h1
      rcases handleAgentRegistered_cases s id with h | ⟨_, src, h⟩
      · rw [h b, h0] at h1; exact Bool.noConfusion h1
      · rw [h b] at h1
        simp only [spawnConfirmed] at h1
        have h2 : mapHas (mapSet s.agents id (newRecord src (resolveType s id) id b)) k = true :=
          (mapHas_mapSet _ _ _ _).2 (Or.inl h0)
        rw [h1] at h2; exact Bool.noConfusion h2
    | handleAgentDeregistered id b =>
      simp only [step] at h1
      rcases handleAgentDeregistered_cases s id b with ⟨_, h⟩ | ⟨_, h⟩
      · rw [h, h0] at h1; exact Bool.noConfusion h1
      · rw [h] at h1
        by_cases hk : k = id
        · exact ⟨b, by rw [hk]⟩
        · have h2 : mapHas (mapDelete s.agents id) k = true :=
            (mapHas_mapDelete _ _ _).2 ⟨h0, hk⟩
          simp only at h1
          rw [h1] at h2; exact Bool.noConfusion h2
    | handleWorkerMessage id data =>
      exact (absurd_same _ (by rw [step, handleWorkerMessage_keys]) h1).elim
    | checkChain heightRes =>
      exact (absurd_same _ (by rw [step, checkChain_agents]) h1).elim
    | processBlockDispatch number blockRes ledger =>
      exact (absurd_same _ (by rw [step, processBlockDispatch_keys]) h1).elim
    | processBlockEvaluate ledger =>
      exact (absurd_same _ (by rw [step, processBlockEvaluate_agents]) h1).elim
    | workerRun id =>
      exact (absurd_same _ (by rw [step, workerRun_keys]) h1).elim
    | deliver id =>
      exact (absurd_same _ (by rw [step, deliver_keys]) h1).elim

/-- Claim C2. `requestSpawn` is a complete no-op when the identifier already has
a record, a pending request or a tombstone: the whole state, trace of ledger
calls included, is returned unchanged, whatever the ledger would have answered. -/
theorem requestSpawn_guarded_noop (s : State) (id type : String) (r : BroadcastReply)
    (h : mapHas s.agents id = true ∨ mapHas s.pendingTypes id = true ∨
      setHas s.tombstones id = true) :
    requestSpawn s id type r = s ∧
    (requestSpawn s id type r).agents = s.agents ∧
    (requestSpawn s id type r).pendingTypes = s.pendingTypes ∧
    (requestSpawn s id type r).tombstones = s.tombstones ∧
    (requestSpawn s id type r).trace.filter Effect.isLedger = s.trace.filter Effect.isLedger := by
  have e : requestSpawn s id type r = s := by
    unfold requestSpawn
    rcases h with h | h | h
    · rw [if_pos h]
    · split_ifs <;> rfl
    · split_ifs <;> rfl
  rw [e]
  exact ⟨rfl, rfl, rfl, rfl, rfl⟩

/-- Witness of C2: a tombstoned identifier is rejected without any ledger
call. -/
theorem requestSpawn_guarded_noop_witness :
    setHas tombstonedSession.tombstones "hunter_7" = true ∧
    requestSpawn tombstonedSession "hunter_7" "HUNTER" replyConfirmed = tombstonedSession :=
  ⟨by decide,
   (requestSpawn_guarded_noop tombstonedSession "hunter_7" "HUNTER" replyConfirmed
      (Or.inr (Or.inr (by decide)))).1⟩

/-- Counterexample to C3 as stated: `scout_1` is not tombstoned and has no
record, its pending request names a variant other than HUNTER and CRISIS, and
the confirmed spawn creates no record. -/
theorem spawn_confirmation_unknown_variant :
    setHas scoutRequested.tombstones "scout_1" = false ∧
    mapHas scoutRequested.agents "scout_1" = false ∧
    mapGet scoutRequested.pendingTypes "scout_1" = some "SCOUT" ∧
    recordCount (handleAgentRegistered scoutRequested "scout_1" 7) "scout_1" = 0 := by
  decide

/-- Claim C3, amended. For an identifier that is not tombstoned, has no record
and whose resolved variant is HUNTER or CRISIS, the first confirmed spawn leaves
exactly one record; and in every state, every further confirmation for the
identifier (any heights, any number of repetitions) leaves the whole state
unchanged. When the identifier has no record and its resolved variant is any
other string, the confirmation is ignored: the state is unchanged and no record
is created. -/
theorem spawn_confirmation_idempotent (s : State) (id : String) (h1 : Nat) (hs : List Nat) :
    (setHas s.tombstones id = false → mapHas s.agents id = false →
      (resolveType s id = "HUNTER" ∨ resolveType s id = "CRISIS") →
      recordCount (handleAgentRegistered s id h1) id = 1) ∧
    hs.foldl (fun t h2 => handleAgentRegistered t id h2) (handleAgentRegistered s id h1) =
      handleAgentRegistered s id h1 ∧
    (mapHas s.agents id = false → resolveType s id ≠ "HUNTER" → resolveType s id ≠ "CRISIS" →
      handleAgentRegistered s id h1 = s ∧
      recordCount (handleAgentRegistered s id h1) id = 0) := by
  refine ⟨?_, foldl_handleAgentRegistered_after hs s id h1, ?_⟩
  · intro _ hrec hty
    obtain ⟨src, e⟩ := handleAgentRegistered_known s id h1 hrec hty
    have hagents : (handleAgentRegistered s id h1).agents =
        s.agents ++ [(id, newRecord src (resolveType s id) id h1)] := by
      rw [e]; simp [spawnConfirmed, mapSet, hrec]
    unfold recordCount
    rw [hagents, List.filter_append, filter_key_of_not_has _ _ hrec]
    simp
  · intro hrec hH hC
    have e : handleAgentRegistered s id h1 = s := by
      unfold handleAgentRegistered
      simp [hrec, hH, hC]
    rw [e]
    refine ⟨rfl, ?_⟩
    unfold recordCount
    rw [filter_key_of_not_has _ _ hrec]
    rfl

/-- Witness of C3: the confirmation of the pending spawn of `hunter_12`. -/
theorem spawn_confirmation_idempotent_witness :
    recordCount (handleAgentRegistered spawnPending "hunter_12" 13) "hunter_12" = 1 ∧
    [14, 15].foldl (fun t h2 => handleAgentRegistered t "hunter_12" h2)
        (handleAgentRegistered spawnPending "hunter_12" 13) =
      handleAgentRegistered spawnPending "hunter_12" 13 :=
  have h := spawn_confirmation_idempotent spawnPending "hunter_12" 13 [14, 15]
  ⟨h.1 (by decide) (by decide) (Or.inl (by decide)), h.2.1⟩

/-- Counterexample to C4 as stated: a kill confirmation for `hunter_12`, which
has a pending request and no record, leaves it out of the tombstone set. -/
theorem kill_confirmation_without_record :
    mapHas spawnPending.agents "hunter_12" = false ∧
    mapHas spawnPending.pendingTypes "hunter_12" = true ∧
    setHas (handleAgentDeregistered spawnPending "hunter_12" 14).tombstones "hunter_12" = false ∧
    handleAgentDeregistered spawnPending "hunter_12" 14 = spawnPending := by
  decide

/-- Claim C4, amended. For every state and every identifier that has a record
(with or without a pending request), after the kill confirmation the identifier
has no record, its worker has been terminated and it is tombstoned; for an
identifier without a record the confirmation changes nothing. -/
theorem kill_confirmation (s : State) (id : String) (b : Nat) :
    (mapHas s.agents id = true →
      mapHas (handleAgentDeregistered s id b).agents id = false ∧
      Effect.terminate id ∈ (handleAgentDeregistered s id b).trace ∧
      (∃ ev, (handleAgentDeregistered s id b).trace = s.trace ++ [Effect.terminate id, ev]) ∧
      setHas (handleAgentDeregistered s id b).tombstones id = true ∧
      (handleAgentDeregistered s id b).pendingTypes = s.pendingTypes) ∧
    (mapHas s.agents id = false → handleAgentDeregistered s id b = s) := by
  constructor
  · intro h
    rcases handleAgentDeregistered_cases s id b with ⟨h0, _⟩ | ⟨_, e⟩
    · rw [h] at h0; exact Bool.noConfusion h0
    · rw [e]
      refine ⟨?_, ?_, ⟨_, rfl⟩, ?_, rfl⟩
      · rw [← Bool.not_eq_true]
        intro hc
        exact ((mapHas_mapDelete _ _ _).1 hc).2 rfl
      · simp
      · exact (setHas_setAdd _ _ _).2 (Or.inr rfl)
  · intro h
    rcases handleAgentDeregistered_cases s id b with ⟨_, e⟩ | ⟨h1, _⟩
    · exact e
    · rw [h] at h1; exact Bool.noConfusion h1

/-- Witness of C4: the kill confirmation of the active agent `crisis_9`. -/
theorem kill_confirmation_witness :
    mapHas crisisActive.agents "crisis_9" = true ∧
    mapHas (handleAgentDeregistered crisisActive "crisis_9" 30).agents "crisis_9" = false ∧
    Effect.terminate "crisis_9" ∈ (handleAgentDeregistered crisisActive "crisis_9" 30).trace ∧
    setHas (handleAgentDeregistered crisisActive "crisis_9" 30).tombstones "crisis_9" = true :=
  have h := (kill_confirmation crisisActive "crisis_9" 30).1 (by decide)
  ⟨by decide, h.1, h.2.1, h.2.2.2.1⟩

/-- Counterexample to C5 as stated: `probe_2` has no record and a pending
request with variant `PROBE`; after the confirmed spawn the agents map holds no
record for it and the pending request is still there. -/
theorem spawn_confirmed_unknown_variant :
    mapHas probeRequested.agents "probe_2" = false ∧
    mapGet probeRequested.pendingTypes "probe_2" = some "PROBE" ∧
    mapGet (handleAgentRegistered probeRequested "probe_2" 3).agents "probe_2" = none ∧
    mapHas (handleAgentRegistered probeRequested "probe_2" 3).pendingTypes "probe_2" = true := by
  decide

/-- Claim C5, amended. For every state and every identifier without a record
(tombstoned or not): if the pending request is absent, empty, or names HUNTER or
CRISIS, the confirmed spawn stores a record whose variant is CRISIS when the
pending request names CRISIS and HUNTER otherwise (that is, the pending variant
if a non-empty one is recorded and HUNTER if not), whose worker is new with
`INIT` posted, whose four metrics are 0 and whose pending decision is empty; it
removes the pending request and the tombstone of the identifier, and leaves the
entries of every other identifier unchanged. If the pending request names any
other non-empty variant, the confirmation is ignored and the whole state is
unchanged. -/
theorem spawn_confirmed_postcondition (s : State) (id : String) (b : Nat)
    (hrec : mapHas s.agents id = false) :
    ((mapGet s.pendingTypes id = none ∨ mapGet s.pendingTypes id = some "" ∨
        mapGet s.pendingTypes id = some "HUNTER" ∨ mapGet s.pendingTypes id = some "CRISIS") →
      (∃ src, mapGet (handleAgentRegistered s id b).agents id =
        some { worker := newWorker src id b
               type := if mapGet s.pendingTypes id = some "CRISIS" then "CRISIS" else "HUNTER"
               metrics := { evalWindow := 0, outputs := 0, efficiency := 0,
                            consecutiveFailures := 0, maxSilence := none, maxLife := none }
               pendingExec := none }) ∧
      mapHas (handleAgentRegistered s id b).pendingTypes id = false ∧
      setHas (handleAgentRegistered s id b).tombstones id = false ∧
      (∀ k, k ≠ id →
        mapGet (handleAgentRegistered s id b).agents k = mapGet s.agents k ∧
        mapGet (handleAgentRegistered s id b).pendingTypes k = mapGet s.pendingTypes k ∧
        setHas (handleAgentRegistered s id b).tombstones k = setHas s.tombstones k)) ∧
    (∀ t, mapGet s.pendingTypes id = some t → t ≠ "" → t ≠ "HUNTER" → t ≠ "CRISIS" →
      handleAgentRegistered s id b = s) := by
  constructor
  · intro hty
    have hres : resolveType s id =
        (if mapGet s.pendingTypes id = some "CRISIS" then "CRISIS" else "HUNTER") := by
      unfold resolveType
      rcases hty with h | h | h | h <;> rw [h] <;> decide
    have hknown : resolveType s id = "HUNTER" ∨ resolveType s id = "CRISIS" := by
      rw [hres]
      rcases hty with h | h | h | h <;> rw [h] <;> decide
    obtain ⟨src, e⟩ := handleAgentRegistered_known s id b hrec hknown
    rw [e, hres]
    simp only [spawnConfirmed]
    refine ⟨⟨src, ?_⟩, ?_, ?_, ?_⟩
    · rw [mapGet_mapSet_new _ _ _ hrec]; rfl
    · rw [← Bool.not_eq_true]
      intro hc
      exact ((mapHas_mapDelete _ _ _).1 hc).2 rfl
    · rw [← Bool.not_eq_true]
      intro hc
      exact ((setHas_clear _ _ _).1 hc).2 rfl
    · intro k hk
      refine ⟨mapGet_mapSet_other _ _ _ _ hk, mapGet_mapDelete_other _ _ _ hk, ?_⟩
      rw [Bool.eq_iff_iff, setHas_clear]
      exact ⟨fun h => h.1, fun h => ⟨h, hk⟩⟩
  · intro t ht h0 hH hC
    have hres : resolveType s id = t := by
      unfold resolveType
      rw [ht]
      simp [h0]
    unfold handleAgentRegistered
    simp [hrec, hres, hH, hC]

/-- Witness of C5: the confirmed spawn of the tombstoned `hunter_7`, for which
no request is pending. -/
theorem spawn_confirmed_postcondition_witness :
    setHas tombstonedSession.tombstones "hunter_7" = true ∧
    (∃ src, mapGet (handleAgentRegistered tombstonedSession "hunter_7" 11).agents "hunter_7" =
      some { worker := newWorker src "hunter_7" 11
             type := if mapGet tombstonedSession.pendingTypes "hunter_7" = some "CRISIS"
               then "CRISIS" else "HUNTER"
             metrics := { evalWindow := 0, outputs := 0, efficiency := 0, consecutiveFailures := 0,
                          maxSilence := none, maxLife := none }
             pendingExec := none }) ∧
    setHas (handleAgentRegistered tombstonedSession "hunter_7" 11).tombstones "hunter_7" = false :=
  have h := (spawn_confirmed_postcondition tombstonedSession "hunter_7" 11 (by decide)).1
    (Or.inl (by decide))
  ⟨by decide, h.1, h.2.2.1⟩

/-- Claim C6. Lifecycle-state exclusivity is an invariant: in every state
reachable from the initial state by `requestSpawn`, `requestKill`,
`handleAgentRegistered` and `handleAgentDeregistered` on arbitrary identifiers,
each identifier is in at most one of the agents map, the pending-request map and
the tombstone set. -/
theorem lifecycle_exclusive (s : State) (h : Reachable s) : Exclusive s := by
  induction h with
  | init => exact exclusive_init
  | step t op _ ih => exact exclusive_apply t op ih

/-- Witness of C6: the session in which `crisis_9` was requested and confirmed. -/
theorem lifecycle_exclusive_witness : Reachable crisisActive ∧ Exclusive crisisActive :=
  have hr : Reachable crisisActive :=
    Reachable.step _ (LifecycleOp.handleAgentRegistered "crisis_9" 10)
      (Reachable.step _ (LifecycleOp.requestSpawn "crisis_9" "CRISIS" replyConfirmed)
        Reachable.init)
  ⟨hr, lifecycle_exclusive crisisActive hr⟩

/-! ## Termination policy -/

theorem terminationReason_eq_reference (type : String) (m : Metrics) :
    terminationReason type m = referencePolicy type m := by
  unfold terminationReason referencePolicy
  by_cases hf : m.consecutiveFailures > 0
  · simp [hf]
  · by_cases hH : type = "HUNTER"
    · subst hH
      have hne : ¬ ("HUNTER" = "CRISIS") := by decide
      by_cases hl : m.evalWindow > 10 ∧ m.efficiency < 1 / 10
      · simp [hf, hne, hl]
      · by_cases hn : m.evalWindow > 15
        · simp [hf, hne, hl, hn]
        · simp [hf, hne, hl, hn]
    · by_cases hC : type = "CRISIS"
      · subst hC
        by_cases hn : m.evalWindow ≥ 20
        · simp [hf, hH, hn]
        · simp [hf, hH, hn]
      · simp [hf, hH, hC]

theorem low_efficiency_ne_empty (x : String) : ("low_efficiency_" ++ x == "") = false := by
  rw [beq_eq_false_iff_ne]
  intro h
  have h2 := congrArg String.length h
  rw [String.length_append] at h2
  have h3 : "low_efficiency_".length = 15 := by decide
  have h4 : "".length = 0 := by decide
  omega

theorem referencePolicy_truthy (type : String) (m : Metrics) (r : String)
    (h : referencePolicy type m = some r) : reasonTruthy (some r) = true := by
  unfold referencePolicy at h
  unfold reasonTruthy
  split_ifs at h <;> (injection h with h; subst h; simp [low_efficiency_ne_empty])

theorem evaluateAgent_calls (ledger : String → BroadcastReply)
    (acc : State × List (String × String)) (p : String × AgentRecord) :
    (evaluateAgent ledger acc p).2 =
      acc.2 ++ ((referencePolicy p.2.type p.2.metrics).map (fun r => (p.1, r))).toList := by
  unfold evaluateAgent
  rw [terminationReason_eq_reference]
  cases h : referencePolicy p.2.type p.2.metrics with
  | none => simp
  | some r => simp [referencePolicy_truthy _ _ _ h]

theorem foldl_evaluateAgent_calls (ledger : String → BroadcastReply)
    (l : List (String × AgentRecord)) (acc : State × List (String × String)) :
    (l.foldl (evaluateAgent ledger) acc).2 =
      acc.2 ++ l.filterMap (fun p => (referencePolicy p.2.type p.2.metrics).map (fun r => (p.1, r))) := by
  induction l generalizing acc with
  | nil => simp
  | cons a t ih =>
    rw [List.foldl_cons, ih, evaluateAgent_calls, List.filterMap_cons]
    cases referencePolicy a.2.type a.2.metrics with
    | none => simp
    | some r => simp

/-- Claim C7. The reason computed by the evaluation phase equals the
priority-ordered reference policy (fault first; HUNTER low efficiency before
natural expiry; CRISIS lifetime) for every variant and metrics; the evaluation
phase calls `requestKill(id, reason)` for exactly the agents to which the policy
gives a reason, with that reason; and one failure at window 3 gives
`execution_fault` for any variant. -/
theorem termination_policy_reference :
    (∀ (type : String) (m : Metrics), terminationReason type m = referencePolicy type m) ∧
    (∀ (s : State) (ledger : String → BroadcastReply),
      (processBlockEvaluate s ledger).2 =
        s.agents.filterMap
          (fun p => (referencePolicy p.2.type p.2.metrics).map (fun r => (p.1, r)))) ∧
    (∀ (type : String) (outputs : Nat) (efficiency : ℚ) (maxSilence maxLife : Option Nat),
      terminationReason type
        { evalWindow := 3, outputs := outputs, efficiency := efficiency,
          consecutiveFailures := 1, maxSilence := maxSilence, maxLife := maxLife } =
        some "execution_fault") := by
  refine ⟨terminationReason_eq_reference, ?_, ?_⟩
  · intro s ledger
    unfold processBlockEvaluate
    rw [foldl_evaluateAgent_calls]
    simp
  · intro type outputs efficiency maxSilence maxLife
    rw [terminationReason_eq_reference]
    simp [referencePolicy]

/-! ## Height tracking in `checkChain` -/

/-- Claim C8, the code at the failing input. After the baseline at block 100, a
height reply whose `result` is the text `0x` parses to `NaN`; `checkChain` then
stores `NaN` in `lastBlock`, which is not `>= 100`, and calls the pipeline with
`NaN`. At the first read, a reply `-0x5` stores the height -5, below the initial
0. -/
theorem checkChain_height_regresses :
    syncedAt100.lastBlock = JSNum.int 100 ∧
    parseInt16 "0x" = JSNum.nan ∧
    (checkChain syncedAt100 (RpcReply.data (some "0x"))).state.lastBlock = JSNum.nan ∧
    (checkChain syncedAt100 (RpcReply.data (some "0x"))).pipeline = some JSNum.nan ∧
    JSNum.ge (checkChain syncedAt100 (RpcReply.data (some "0x"))).state.lastBlock
      syncedAt100.lastBlock = false ∧
    (checkChain State.init (RpcReply.data (some "-0x5"))).state.lastBlock = JSNum.int (-5) ∧
    JSNum.ge (checkChain State.init (RpcReply.data (some "-0x5"))).state.lastBlock
      State.init.lastBlock = false := by
  decide

/-- What does hold of `checkChain`: when `lastBlock` is a natural number and the
reply is unusable or its `result` parses to a natural number, the new
`lastBlock` is a natural number not below the old one, and a pipeline call means
a strict increase and is made for exactly the new `lastBlock`. -/
theorem checkChain_monotone_of_parsed (s : State) (res : RpcReply String) (old : Nat)
    (hs : s.lastBlock = JSNum.int old)
    (hp : ∀ r, res = RpcReply.data (some r) → r ≠ "" → ∃ n : Nat, parseInt16 r = JSNum.int n) :
    ∃ new : Nat, (checkChain s res).state.lastBlock = JSNum.int new ∧ old ≤ new ∧
      ∀ h, (checkChain s res).pipeline = some h → old < new ∧ h = JSNum.int new := by
  cases res with
  | threw => exact ⟨old, hs, le_refl _, fun h hh => Option.noConfusion hh⟩
  | null => exact ⟨old, hs, le_refl _, fun h hh => Option.noConfusion hh⟩
  | data result =>
    cases result with
    | none => exact ⟨old, hs, le_refl _, fun h hh => Option.noConfusion hh⟩
    | some r =>
      by_cases hr : r = ""
      · refine ⟨old, ?_, le_refl _, ?_⟩
        · simp [checkChain, hr, hs]
        · intro h hh; simp [checkChain, hr] at hh
      · obtain ⟨n, hn⟩ := hp r rfl hr
        by_cases h0 : old = 0
        · subst h0
          refine ⟨n, ?_, Nat.zero_le _, ?_⟩
          · simp [checkChain, hr, hs, hn, JSNum.le, JSNum.strictEq]
          · intro h hh; simp [checkChain, hr, hs, hn, JSNum.le, JSNum.strictEq] at hh
        · by_cases hle : n ≤ old
          · refine ⟨old, ?_, le_refl _, ?_⟩
            · simp [checkChain, hr, hs, hn, JSNum.le, JSNum.strictEq, hle, h0]
            · intro h hh
              simp [checkChain, hr, hs, hn, JSNum.le, JSNum.strictEq, hle, h0] at hh
          · have hlt : old < n := Nat.lt_of_not_le hle
            refine ⟨n, ?_, le_of_lt hlt, ?_⟩
            · simp [checkChain, hr, hs, hn, JSNum.le, JSNum.strictEq, hle, h0]
            · intro h hh
              simp [checkChain, hr, hs, hn, JSNum.le, JSNum.strictEq, hle, h0] at hh
              exact ⟨hlt, hh.symm⟩

/-! ## Signal detection -/

theorem signalDetection_spec (st : State) (h s0 : Int) (g : JSNum)
    (ledger : String → BroadcastReply) (hb : cooldownBase st.lastSpawnBlock = JSNum.int s0) :
    ((("hunter_" ++ toString h, "HUNTER") ∈ (signalDetection st (JSNum.int h) g ledger).2) ↔
      ((∃ gi : Int, g = JSNum.int gi ∧ gi > 4000000) ∧ h > s0 + 5)) ∧
    (∀ id, (id, "HUNTER") ∈ (signalDetection st (JSNum.int h) g ledger).2 →
      id = "hunter_" ++ toString h) ∧
    (((∃ gi : Int, g = JSNum.int gi ∧ gi > 4000000) ∧ h > s0 + 5) →
      (signalDetection st (JSNum.int h) g ledger).1.lastSpawnBlock = some (JSNum.int h)) ∧
    (¬ ((∃ gi : Int, g = JSNum.int gi ∧ gi > 4000000) ∧ h > s0 + 5) →
      (signalDetection st (JSNum.int h) g ledger).1.lastSpawnBlock = some (JSNum.int s0)) := by
  have hne : ¬ ("HUNTER" = "CRISIS") := by decide
  have hne2 : ¬ ("CRISIS" = "HUNTER") := by decide
  unfold signalDetection
  simp only [hb]
  cases g with
  | nan =>
    by_cases h9 : JSNum.remIsZero (JSNum.int h) 9 = true
    · simp [JSNum.gt, JSNum.add, h9, hne, hne2, requestSpawn_lastSpawnBlock]
    · simp [JSNum.gt, JSNum.add, h9, hne, hne2, requestSpawn_lastSpawnBlock]
  | int gi =>
    by_cases hg : gi > 4000000
    · by_cases hh : h > s0 + 5
      · by_cases h9 : JSNum.remIsZero (JSNum.int h) 9 = true
        · simp [JSNum.gt, JSNum.add, processBlock.GAS_THRESHOLD, processBlock.SPAWN_COOLDOWN,
            JSNum.toStr, h9, hne, hne2, requestSpawn_lastSpawnBlock, hg, hh]
        · simp [JSNum.gt, JSNum.add, processBlock.GAS_THRESHOLD, processBlock.SPAWN_COOLDOWN,
            JSNum.toStr, h9, hne, hne2, requestSpawn_lastSpawnBlock, hg, hh]
      · by_cases h9 : JSNum.remIsZero (JSNum.int h) 9 = true
        · simp [JSNum.gt, JSNum.add, processBlock.GAS_THRESHOLD, processBlock.SPAWN_COOLDOWN,
            JSNum.toStr, h9, hne, hne2, requestSpawn_lastSpawnBlock, hg, hh]
        · simp [JSNum.gt, JSNum.add, processBlock.GAS_THRESHOLD, processBlock.SPAWN_COOLDOWN,
            JSNum.toStr, h9, hne, hne2, requestSpawn_lastSpawnBlock, hg, hh]
    · by_cases h9 : JSNum.remIsZero (JSNum.int h) 9 = true
      · simp [JSNum.gt, JSNum.add, processBlock.GAS_THRESHOLD, processBlock.SPAWN_COOLDOWN,
          JSNum.toStr, h9, hne, hne2, requestSpawn_lastSpawnBlock, hg]
      · simp [JSNum.gt, JSNum.add, processBlock.GAS_THRESHOLD, processBlock.SPAWN_COOLDOWN,
          JSNum.toStr, h9, hne, hne2, requestSpawn_lastSpawnBlock, hg]

theorem executionPhase_lastSpawnBlock (s : State) (block : BlockData) :
    (executionPhase s block).lastSpawnBlock = s.lastSpawnBlock := rfl

theorem observation_lastSpawnBlock (s : State) (number : JSNum) (block : BlockData) :
    (observation s number block).lastSpawnBlock = s.lastSpawnBlock := rfl

theorem requestSpawn_lastBlock (s : State) (id type : String) (r : BroadcastReply) :
    (requestSpawn s id type r).lastBlock = s.lastBlock := by
  unfold requestSpawn; split_ifs <;> rfl

/-- The calls `requestSpawn` made by signal detection, as a function of the
cooldown base, the height and the block usage. -/
theorem signalDetection_calls (s : State) (number gasUsed : JSNum)
    (ledger : String → BroadcastReply) :
    (signalDetection s number gasUsed ledger).2 =
      (if (JSNum.gt gasUsed (JSNum.int processBlock.GAS_THRESHOLD) &&
            JSNum.gt number (JSNum.add (cooldownBase s.lastSpawnBlock)
              (JSNum.int processBlock.SPAWN_COOLDOWN))) = true
        then [("hunter_" ++ number.toStr, "HUNTER")] else []) ++
      (if JSNum.remIsZero number 9 = true then [("crisis_" ++ number.toStr, "CRISIS")] else []) := by
  unfold signalDetection
  simp only
  split_ifs <;> simp

theorem signalDetection_lastBlock (s : State) (number gasUsed : JSNum)
    (ledger : String → BroadcastReply) :
    (signalDetection s number gasUsed ledger).1.lastBlock = s.lastBlock := by
  unfold signalDetection
  simp only
  split_ifs <;> simp [requestSpawn_lastBlock]

theorem signalDetection_lastSpawnBlock (s : State) (number gasUsed : JSNum)
    (ledger : String → BroadcastReply) :
    (signalDetection s number gasUsed ledger).1.lastSpawnBlock =
      some (if (JSNum.gt gasUsed (JSNum.int processBlock.GAS_THRESHOLD) &&
            JSNum.gt number (JSNum.add (cooldownBase s.lastSpawnBlock)
              (JSNum.int processBlock.SPAWN_COOLDOWN))) = true
        then number else cooldownBase s.lastSpawnBlock) := by
  unfold signalDetection
  simp only
  split_ifs <;> simp [requestSpawn_lastSpawnBlock]

theorem processBlockDispatch_calls (s : State) (number : JSNum) (block : BlockData)
    (ledger : String → BroadcastReply) :
    (processBlockDispatch s number (RpcReply.data (some block)) ledger).2 =
      (if (JSNum.gt (parseInt16 block.gasUsed) (JSNum.int processBlock.GAS_THRESHOLD) &&
            JSNum.gt number (JSNum.add (cooldownBase (observation s number block).lastSpawnBlock)
              (JSNum.int processBlock.SPAWN_COOLDOWN))) = true
        then [("hunter_" ++ number.toStr, "HUNTER")] else []) ++
      (if JSNum.remIsZero number 9 = true then [("crisis_" ++ number.toStr, "CRISIS")] else []) := by
  simp only [processBlockDispatch]
  exact signalDetection_calls _ _ _ _

theorem processBlockDispatch_lastBlock (s : State) (number : JSNum) (blockRes : RpcReply BlockData)
    (ledger : String → BroadcastReply) :
    (processBlockDispatch s number blockRes ledger).1.lastBlock = s.lastBlock := by
  unfold processBlockDispatch
  cases blockRes with
  | threw => rfl
  | null => rfl
  | data result =>
    cases result with
    | none => rfl
    | some block =>
      simp only [executionPhase]
      rw [signalDetection_lastBlock]
      rfl

theorem processBlockDispatch_lastSpawnBlock (s : State) (number : JSNum) (block : BlockData)
    (ledger : String → BroadcastReply) :
    (processBlockDispatch s number (RpcReply.data (some block)) ledger).1.lastSpawnBlock =
      some (if (JSNum.gt (parseInt16 block.gasUsed) (JSNum.int processBlock.GAS_THRESHOLD) &&
            JSNum.gt number (JSNum.add (cooldownBase (observation s number block).lastSpawnBlock)
              (JSNum.int processBlock.SPAWN_COOLDOWN))) = true
        then number else cooldownBase (observation s number block).lastSpawnBlock) := by
  simp only [processBlockDispatch, executionPhase_lastSpawnBlock]
  exact signalDetection_lastSpawnBlock _ _ _ _

theorem checkChain_lastSpawnBlock (s : State) (heightRes : RpcReply String) :
    (checkChain s heightRes).state.lastSpawnBlock = s.lastSpawnBlock := by
  unfold checkChain
  cases heightRes with
  | threw => rfl
  | null => rfl
  | data result =>
    cases result with
    | none => rfl
    | some r => simp only; split_ifs <;> rfl

theorem checkChain_pipeline_of_lastBlock (s : State) (heightRes : RpcReply String) (b : JSNum)
    (h : s.lastBlock = b) :
    (checkChain s heightRes).pipeline =
      (checkChain { State.init with lastBlock := b } heightRes).pipeline := by
  unfold checkChain
  cases heightRes with
  | threw => rfl
  | null => rfl
  | data result =>
    cases result with
    | none => rfl
    | some r => simp only [h]; split_ifs <;> rfl

/-- Claim C9. Signal detection with cooldown: in the pipeline for height `h`
with stored cooldown state `lastSpawnBlock = s` (or never assigned, which counts
as `s = 0`), the call `requestSpawn("hunter_<h>", "HUNTER")` is made exactly
when the block usage is above 4,000,000 and `h > s + 5`, and no other HUNTER
spawn is requested; `lastSpawnBlock` becomes `h` in that case and keeps the
value `s` otherwise. Scenario: after the baseline 100, height 101 with usage
1,000,000 requests nothing, height 106 with usage 4,500,000 requests
`hunter_106` and stores 106. With 106 stored, heights 107 and 111 with usage
4,500,000 request nothing and leave 106 stored, and height 112 requests
`hunter_112` and stores 112. -/
theorem signal_detection_cooldown :
    (∀ (st : State) (h s : Int) (block : BlockData) (ledger : String → BroadcastReply),
      (st.lastSpawnBlock = some (JSNum.int s) ∨ (st.lastSpawnBlock = none ∧ s = 0)) →
        ((("hunter_" ++ toString h, "HUNTER") ∈
            (processBlockDispatch st (JSNum.int h) (RpcReply.data (some block)) ledger).2) ↔
          ((∃ gi : Int, parseInt16 block.gasUsed = JSNum.int gi ∧ gi > 4000000) ∧ h > s + 5)) ∧
        (∀ id, (id, "HUNTER") ∈
            (processBlockDispatch st (JSNum.int h) (RpcReply.data (some block)) ledger).2 →
          id = "hunter_" ++ toString h) ∧
        (((∃ gi : Int, parseInt16 block.gasUsed = JSNum.int gi ∧ gi > 4000000) ∧ h > s + 5) →
          (processBlockDispatch st (JSNum.int h) (RpcReply.data (some block)) ledger).1.lastSpawnBlock
            = some (JSNum.int h)) ∧
        (¬ ((∃ gi : Int, parseInt16 block.gasUsed = JSNum.int gi ∧ gi > 4000000) ∧ h > s + 5) →
          (processBlockDispatch st (JSNum.int h) (RpcReply.data (some block)) ledger).1.lastSpawnBlock
            = some (JSNum.int s))) ∧
    (∀ (ledger : String → BroadcastReply) (hash1 hash2 : String),
      (checkChain syncedAt100 (RpcReply.data (some "0x65"))).pipeline = some (JSNum.int 101) ∧
      (processBlockDispatch (checkChain syncedAt100 (RpcReply.data (some "0x65"))).state
          (JSNum.int 101) (RpcReply.data (some { hash := hash1, gasUsed := "0xf4240" })) ledger).2
        = [] ∧
      (checkChain
          (processBlockDispatch (checkChain syncedAt100 (RpcReply.data (some "0x65"))).state
            (JSNum.int 101) (RpcReply.data (some { hash := hash1, gasUsed := "0xf4240" }))
            ledger).1
          (RpcReply.data (some "0x6a"))).pipeline = some (JSNum.int 106) ∧
      (processBlockDispatch
          (checkChain
            (processBlockDispatch (checkChain syncedAt100 (RpcReply.data (some "0x65"))).state
              (JSNum.int 101) (RpcReply.data (some { hash := hash1, gasUsed := "0xf4240" }))
              ledger).1
            (RpcReply.data (some "0x6a"))).state
          (JSNum.int 106) (RpcReply.data (some { hash := hash2, gasUsed := "0x44aa20" })) ledger).2
        = [("hunter_106", "HUNTER")] ∧
      (processBlockDispatch
          (checkChain
            (processBlockDispatch (checkChain syncedAt100 (RpcReply.data (some "0x65"))).state
              (JSNum.int 101) (RpcReply.data (some { hash := hash1, gasUsed := "0xf4240" }))
              ledger).1
            (RpcReply.data (some "0x6a"))).state
          (JSNum.int 106) (RpcReply.data (some { hash := hash2, gasUsed := "0x44aa20" }))
          ledger).1.lastSpawnBlock
        = some (JSNum.int 106)) ∧
    (∀ (st : State) (ledger : String → BroadcastReply) (hash : String),
      st.lastSpawnBlock = some (JSNum.int 106) →
      (processBlockDispatch st (JSNum.int 107)
          (RpcReply.data (some { hash := hash, gasUsed := "0x44aa20" })) ledger).2 = [] ∧
      (processBlockDispatch st (JSNum.int 107)
          (RpcReply.data (some { hash := hash, gasUsed := "0x44aa20" })) ledger).1.lastSpawnBlock
        = some (JSNum.int 106) ∧
      (processBlockDispatch st (JSNum.int 111)
          (RpcReply.data (some { hash := hash, gasUsed := "0x44aa20" })) ledger).2 = [] ∧
      (processBlockDispatch st (JSNum.int 111)
          (RpcReply.data (some { hash := hash, gasUsed := "0x44aa20" })) ledger).1.lastSpawnBlock
        = some (JSNum.int 106) ∧
      (processBlockDispatch st (JSNum.int 112)
          (RpcReply.data (some { hash := hash, gasUsed := "0x44aa20" })) ledger).2
        = [("hunter_112", "HUNTER")] ∧
      (processBlockDispatch st (JSNum.int 112)
          (RpcReply.data (some { hash := hash, gasUsed := "0x44aa20" })) ledger).1.lastSpawnBlock
        = some (JSNum.int 112)) := by
  refine ⟨?_, ?_, ?_⟩
  · intro st h s block ledger hst
    have hs0 : cooldownBase st.lastSpawnBlock = JSNum.int s := by
      rcases hst with e | ⟨e, e0⟩
      · rw [e]
        unfold cooldownBase
        by_cases hz : s = 0
        · simp [JSNum.truthy, hz]
        · simp [JSNum.truthy, hz]
      · rw [e, e0]; rfl
    have hobs : cooldownBase (observation st (JSNum.int h) block).lastSpawnBlock = JSNum.int s :=
      hs0
    have key := signalDetection_spec (observation st (JSNum.int h) block) h s
      (parseInt16 block.gasUsed) ledger hobs
    refine ⟨key.1, key.2.1, ?_, ?_⟩
    · intro hc
      simp only [processBlockDispatch, executionPhase_lastSpawnBlock]
      exact key.2.2.1 hc
    · intro hc
      simp only [processBlockDispatch, executionPhase_lastSpawnBlock]
      exact key.2.2.2 hc
  · intro ledger hash1 hash2
    have c1 : (checkChain syncedAt100 (RpcReply.data (some "0x65"))).state.lastBlock =
        JSNum.int 101 := by decide
    have c1s : (checkChain syncedAt100 (RpcReply.data (some "0x65"))).state.lastSpawnBlock =
        none := by decide
    refine ⟨by decide, ?_, ?_, ?_, ?_⟩
    · rw [processBlockDispatch_calls, observation_lastSpawnBlock, c1s]
      dsimp only
      decide
    · rw [checkChain_pipeline_of_lastBlock _ _ (JSNum.int 101)
        (by rw [processBlockDispatch_lastBlock, c1])]
      decide
    · rw [processBlockDispatch_calls, observation_lastSpawnBlock, checkChain_lastSpawnBlock,
        processBlockDispatch_lastSpawnBlock, observation_lastSpawnBlock, c1s]
      dsimp only
      decide
    · rw [processBlockDispatch_lastSpawnBlock, observation_lastSpawnBlock,
        checkChain_lastSpawnBlock, processBlockDispatch_lastSpawnBlock,
        observation_lastSpawnBlock, c1s]
      dsimp only
      decide
  · intro st ledger hash hst
    refine ⟨?_, ?_, ?_, ?_, ?_, ?_⟩
    · rw [processBlockDispatch_calls, observation_lastSpawnBlock, hst]
      dsimp only
      decide
    · rw [processBlockDispatch_lastSpawnBlock, observation_lastSpawnBlock, hst]
      dsimp only
      decide
    · rw [processBlockDispatch_calls, observation_lastSpawnBlock, hst]
      dsimp only
      decide
    · rw [processBlockDispatch_lastSpawnBlock, observation_lastSpawnBlock, hst]
      dsimp only
      decide
    · rw [processBlockDispatch_calls, observation_lastSpawnBlock, hst]
      dsimp only
      decide
    · rw [processBlockDispatch_lastSpawnBlock, observation_lastSpawnBlock, hst]
      dsimp only
      decide

/-- Witness of C9, with a cooldown that is not 0: in the session that stored
`lastSpawnBlock = 106`, a block of usage 4,500,000 at height 112 requests
`hunter_112`, and the same block at height 107 requests no HUNTER. -/
theorem signal_detection_cooldown_witness :
    afterSpike106.lastSpawnBlock = some (JSNum.int 106) ∧
    ("hunter_" ++ toString (112 : Int), "HUNTER") ∈
      (processBlockDispatch afterSpike106 (JSNum.int 112) (RpcReply.data (some spikeBlock))
        (fun _ => replyConfirmed)).2 ∧
    ¬ (("hunter_" ++ toString (107 : Int), "HUNTER") ∈
      (processBlockDispatch afterSpike106 (JSNum.int 107) (RpcReply.data (some spikeBlock))
        (fun _ => replyConfirmed)).2) :=
  ⟨by decide,
   ((signal_detection_cooldown.1 afterSpike106 112 106 spikeBlock (fun _ => replyConfirmed)
      (Or.inl (by decide))).1).2 ⟨⟨4500000, by decide, by decide⟩, by decide⟩,
   fun hm =>
     absurd (((signal_detection_cooldown.1 afterSpike106 107 106 spikeBlock
       (fun _ => replyConfirmed) (Or.inl (by decide))).1).1 hm).2 (by decide)⟩

/-! ## Worker message contract -/

theorem crisis_block_contract (st : CrisisState) (gasUsed hash : String) (failed : Bool) :
    metricsCount (crisisOnMessage st (WorkerIn.block gasUsed hash failed)).2 = 1 ∧
    decisionCount (crisisOnMessage st (WorkerIn.block gasUsed hash failed)).2 ≤ 1 := by
  cases failed <;>
    simp [crisisOnMessage, metricsCount, decisionCount, crisisDecision, crisisMetrics,
      WorkerOut.isMetrics, WorkerOut.isDecision]

theorem hunter_block_contract (st : HunterState) (gasUsed hash : String) (failed : Bool) :
    metricsCount (hunterOnMessage st (WorkerIn.block gasUsed hash failed)).2 =
      (if JSNum.strictEq st.lastGas (JSNum.int 0) = true then 0 else 1) ∧
    decisionCount (hunterOnMessage st (WorkerIn.block gasUsed hash failed)).2 ≤ 1 := by
  cases failed <;> by_cases h0 : JSNum.strictEq st.lastGas (JSNum.int 0) = true <;>
    simp only [hunterOnMessage, hunterProcessBlock, h0, if_true, if_false, Bool.false_eq_true] <;>
    (try split_ifs) <;>
    simp [metricsCount, decisionCount, hunterDecision, hunterMetrics, WorkerOut.isMetrics,
      WorkerOut.isDecision]

/-- Claim C10, the code at the failing input. The first `BLOCK` a HUNTER worker
handles after `INIT` (whatever its usage, hash and failure flag) posts no
message at all, so no `METRICS`; the same holds in every later state whose
`lastGas` is still 0. A CRISIS worker posts exactly one `METRICS` for every
`BLOCK`. -/
theorem hunter_first_block_no_metrics (id gasUsed hash : String) (failed : Bool) :
    (hunterOnMessage (hunterInit id) (WorkerIn.block gasUsed hash failed)).2 = [] ∧
    metricsCount (hunterOnMessage (hunterInit id) (WorkerIn.block gasUsed hash failed)).2 = 0 ∧
    (∀ st : HunterState, st.lastGas = JSNum.int 0 →
      metricsCount (hunterOnMessage st (WorkerIn.block gasUsed hash failed)).2 = 0) ∧
    (∀ st : CrisisState,
      metricsCount (crisisOnMessage st (WorkerIn.block gasUsed hash failed)).2 = 1) := by
  have h0 : ∀ st : HunterState, st.lastGas = JSNum.int 0 →
      metricsCount (hunterOnMessage st (WorkerIn.block gasUsed hash failed)).2 = 0 := by
    intro st hst
    rw [(hunter_block_contract st gasUsed hash failed).1, hst]
    simp [JSNum.strictEq]
  refine ⟨?_, h0 _ rfl, h0, fun st => (crisis_block_contract st gasUsed hash failed).1⟩
  cases failed <;> simp [hunterOnMessage, hunterProcessBlock, hunterInit, JSNum.strictEq]

/-! ## Spawn broadcast failure -/

theorem broadcastCatch_no_register (e : JSError) :
    (broadcastCatch e).any Effect.isRegisterAgent = false := by
  unfold broadcastCatch
  simp only
  split_ifs
  · simp [uiLifecycle, Effect.isRegisterAgent]
  · simp [uiLifecycle, Effect.isRegisterAgent]
  · simp [uiLifecycle, Effect.isRegisterAgent]
  · simp [uiLifecycle, Effect.isRegisterAgent]
  · cases e.code with
    | none => simp [uiLifecycle, Effect.isRegisterAgent]
    | some c =>
      by_cases hc : c = ""
      · simp [uiLifecycle, Effect.isRegisterAgent, hc]
      · simp [uiLifecycle, Effect.isRegisterAgent, hc]

theorem broadcastLifecycle_failure_no_register (id : String) (r : BroadcastReply)
    (hfail : (∃ est, r.estimateGas = Reply.ok est ∧ est > 500000) ∨
      (∃ e, r.getNetwork = Reply.threw e) ∨ (∃ e, r.estimateGas = Reply.threw e)) :
    (broadcastLifecycle id "SPAWN" r).any Effect.isRegisterAgent = false := by
  have haddr : ¬ (registryAddr = addressZero) := by decide
  have hkill : ¬ ("SPAWN" = "KILL") := by decide
  unfold broadcastLifecycle
  rw [if_neg haddr]
  cases hn : r.getNetwork with
  | threw e => simp [uiLifecycle, Effect.isRegisterAgent]
  | ok u =>
    simp only [List.any_append]
    by_cases hb : (substr id 0 31).utf8ByteSize > 31
    · simp [hb, uiLifecycle, Effect.isRegisterAgent, broadcastCatch_no_register]
    · simp only [hb, if_false, if_true]
      unfold broadcastTx
      rcases hfail with ⟨est, he, hgt⟩ | ⟨e, he⟩ | ⟨e, he⟩
      · have hgt2 : est > broadcastLifecycle.GAS_THRESHOLD := hgt
        simp [he, hgt2, uiLifecycle, Effect.isRegisterAgent, broadcastCatch_no_register]
      · rw [hn] at he; exact Reply.noConfusion he
      · simp [he, uiLifecycle, Effect.isRegisterAgent, broadcastCatch_no_register]

/-- Counterexample to C11 as stated: from the constructor's state, the spawn
broadcast of `hunter_106` aborts on a gas estimate of 600000 (or on an
unreachable network). No `registerAgent` is submitted and no record exists, but
the pending-request entry is there, and a second `requestSpawn` for the same
identifier returns at the pending guard without a broadcast. -/
theorem spawn_failure_leaves_pending :
    (requestSpawn State.init "hunter_106" "HUNTER" replyGasAbort).trace.any
      Effect.isRegisterAgent = false ∧
    mapHas (requestSpawn State.init "hunter_106" "HUNTER" replyGasAbort).agents "hunter_106"
      = false ∧
    mapHas (requestSpawn State.init "hunter_106" "HUNTER" replyGasAbort).pendingTypes "hunter_106"
      = true ∧
    requestSpawn (requestSpawn State.init "hunter_106" "HUNTER" replyGasAbort)
        "hunter_106" "HUNTER" replyConfirmed =
      requestSpawn State.init "hunter_106" "HUNTER" replyGasAbort ∧
    mapHas (requestSpawn State.init "hunter_106" "HUNTER" replyUnreachable).pendingTypes
      "hunter_106" = true ∧
    requestSpawn (requestSpawn State.init "hunter_106" "HUNTER" replyUnreachable)
        "hunter_106" "HUNTER" replyConfirmed =
      requestSpawn State.init "hunter_106" "HUNTER" replyUnreachable := by
  decide

/-- Claim C11, amended. For every state and every identifier that passes the
guards of `requestSpawn`, if the broadcast fails because the gas estimate is
above 500000, or because the network check or the estimate call throws, then
`registerAgent` is not submitted and the identifier has no record afterwards;
its pending-request entry, written before the broadcast, stays, so every later
`requestSpawn` for the identifier is a no-op and attempts no broadcast. -/
theorem spawn_broadcast_failure (s : State) (id type : String) (r : BroadcastReply)
    (ha : mapHas s.agents id = false) (hp : mapHas s.pendingTypes id = false)
    (ht : setHas s.tombstones id = false)
    (hfail : (∃ est, r.estimateGas = Reply.ok est ∧ est > 500000) ∨
      (∃ e, r.getNetwork = Reply.threw e) ∨ (∃ e, r.estimateGas = Reply.threw e)) :
    (requestSpawn s id type r).trace = s.trace ++ broadcastLifecycle id "SPAWN" r ∧
    (broadcastLifecycle id "SPAWN" r).any Effect.isRegisterAgent = false ∧
    mapHas (requestSpawn s id type r).agents id = false ∧
    mapGet (requestSpawn s id type r).pendingTypes id = some type ∧
    ∀ (type2 : String) (r2 : BroadcastReply),
      requestSpawn (requestSpawn s id type r) id type2 r2 = requestSpawn s id type r := by
  have e : requestSpawn s id type r =
      { s with
        pendingTypes := mapSet s.pendingTypes id type
        trace := s.trace ++ broadcastLifecycle id "SPAWN" r } := by
    unfold requestSpawn
    simp [ha, hp, ht]
  have hget : mapGet (requestSpawn s id type r).pendingTypes id = some type := by
    rw [e]; exact mapGet_mapSet_new _ _ _ hp
  refine ⟨by rw [e], broadcastLifecycle_failure_no_register id r hfail, ?_, hget, ?_⟩
  · rw [requestSpawn_agents]; exact ha
  · intro type2 r2
    have hpend : mapHas (requestSpawn s id type r).pendingTypes id = true :=
      mapHas_of_mapGet _ _ _ hget
    generalize requestSpawn s id type r = t at hpend
    unfold requestSpawn
    split_ifs <;> rfl

/-- Witness of C11: the gas estimate 600000 against the threshold 500000. -/
theorem spawn_broadcast_failure_witness :
    (broadcastLifecycle "hunter_106" "SPAWN" replyGasAbort).any Effect.isRegisterAgent = false ∧
    mapHas (requestSpawn State.init "hunter_106" "HUNTER" replyGasAbort).agents "hunter_106"
      = false ∧
    mapGet (requestSpawn State.init "hunter_106" "HUNTER" replyGasAbort).pendingTypes "hunter_106"
      = some "HUNTER" :=
  have h := spawn_broadcast_failure State.init "hunter_106" "HUNTER" replyGasAbort
    (by decide) (by decide) (by decide) (Or.inl ⟨600000, rfl, by decide⟩)
  ⟨h.2.1, h.2.2.1, h.2.2.2.1⟩

/-! ## Low-efficiency pruning -/

theorem toFixed2_zero : toFixed2 0 = "0.00" := by
  have h : Rat.floor (|(0 : ℚ)| * 100 + 1 / 2) = 0 := by
    show ⌊(|(0 : ℚ)| * 100 + 1 / 2)⌋ = 0
    rw [Int.floor_eq_iff]
    norm_num
  unfold toFixed2
  rw [h]
  decide

theorem decisionCount_append (a b : List WorkerOut) :
    decisionCount (a ++ b) = decisionCount a + decisionCount b := by
  simp [decisionCount, List.filter_append]

theorem hunterRun_append (l1 l2 : List WorkerIn) (st : HunterState) :
    hunterRun st (l1 ++ l2) =
      ((hunterRun (hunterRun st l1).1 l2).1,
       (hunterRun st l1).2 ++ (hunterRun (hunterRun st l1).1 l2).2) := by
  induction l1 generalizing st with
  | nil => simp [hunterRun]
  | cons m ms ih => simp [hunterRun, ih, List.append_assoc]

theorem hunter_block_lastGas (st : HunterState) (g h : String) (f : Bool) :
    (hunterOnMessage st (WorkerIn.block g h f)).1.lastGas = parseInt16 g := by
  simp only [hunterOnMessage, hunterProcessBlock]
  split_ifs <;> rfl

theorem hunter_quiet_step (st : HunterState) (g h : String)
    (hd : decisionCount (hunterOnMessage st (WorkerIn.block g h false)).2 = 0) :
    (hunterOnMessage st (WorkerIn.block g h false)).1.evalWindow = st.evalWindow + 1 ∧
    (hunterOnMessage st (WorkerIn.block g h false)).1.outputs = st.outputs ∧
    (hunterOnMessage st (WorkerIn.block g h false)).1.consecutiveFailures =
      st.consecutiveFailures := by
  simp only [hunterOnMessage, hunterProcessBlock, Bool.false_eq_true, if_false] at hd ⊢
  by_cases h0 : JSNum.strictEq st.lastGas (JSNum.int 0) = true
  · simp [h0]
  · by_cases h1 : JSNum.gt (JSNum.absDiff (parseInt16 g) st.lastGas) (JSNum.int 3000000) = true
    · simp [h0, h1, decisionCount, hunterDecision, hunterMetrics, WorkerOut.isDecision] at hd
    · simp [h0, h1]

theorem hunter_quiet_report (st : HunterState) (g h : String)
    (hl : st.lastGas ≠ JSNum.int 0)
    (hd : decisionCount (hunterOnMessage st (WorkerIn.block g h false)).2 = 0) :
    (hunterOnMessage st (WorkerIn.block g h false)).2 =
      [hunterMetrics { st with evalWindow := st.evalWindow + 1, lastGas := parseInt16 g }] := by
  have h0 : JSNum.strictEq st.lastGas (JSNum.int 0) = false := by
    cases hg : st.lastGas with
    | nan => rfl
    | int i =>
      have : i ≠ 0 := by
        intro hi; apply hl; rw [hg, hi]
      simp [JSNum.strictEq, this]
  simp only [hunterOnMessage, hunterProcessBlock, Bool.false_eq_true, if_false] at hd ⊢
  by_cases h1 : JSNum.gt (JSNum.absDiff (parseInt16 g) st.lastGas) (JSNum.int 3000000) = true
  · simp [h0, h1, decisionCount, hunterDecision, hunterMetrics, WorkerOut.isDecision] at hd
  · simp [h0, h1]

theorem hunter_quiet_run (bs : List BlockData) (st : HunterState)
    (hd : decisionCount (hunterRun st (dispatched bs)).2 = 0) :
    (hunterRun st (dispatched bs)).1.evalWindow = st.evalWindow + bs.length ∧
    (hunterRun st (dispatched bs)).1.outputs = st.outputs ∧
    (hunterRun st (dispatched bs)).1.consecutiveFailures = st.consecutiveFailures := by
  induction bs generalizing st with
  | nil => simp [dispatched, hunterRun]
  | cons b t ih =>
    simp only [dispatched, List.map_cons, hunterRun, decisionCount_append] at hd ⊢
    have h1 : decisionCount (hunterOnMessage st (WorkerIn.block b.gasUsed b.hash false)).2 = 0 := by
      omega
    have h2 := hunter_quiet_step st b.gasUsed b.hash h1
    have h3 := ih (hunterOnMessage st (WorkerIn.block b.gasUsed b.hash false)).1
      (by simp only [dispatched]; omega)
    simp only [dispatched] at h3
    obtain ⟨e1, e2, e3⟩ := h3
    obtain ⟨f1, f2, f3⟩ := h2
    refine ⟨?_, e2.trans f2, e3.trans f3⟩
    rw [e1, f1, List.length_cons]
    omega

theorem mapGet_mapSet_same {β : Type} (m : List (String × β)) (k : String) (v : β)
    (h : mapHas m k = true) : mapGet (mapSet m k v) k = some v := by
  unfold mapSet
  rw [if_pos h]
  induction m with
  | nil => simp [mapHas] at h
  | cons a t ih =>
    simp only [mapGet, List.map_cons, List.find?_cons] at ih ⊢
    by_cases ha : a.1 = k
    · simp [ha]
    · have h1 : (a.1 == k) = false := by simpa using ha
      have ht : mapHas t k = true := by
        simpa [mapHas, h1] using h
      simp only [h1, Bool.false_eq_true, if_false]
      exact ih ht

theorem mapGet_mem {β : Type} (m : List (String × β)) (k : String) (v : β)
    (h : mapGet m k = some v) : (k, v) ∈ m := by
  induction m with
  | nil => simp [mapGet] at h
  | cons a t ih =>
    simp only [mapGet, List.find?_cons] at ih h
    by_cases ha : (a.1 == k) = true
    · simp only [ha, Option.map_some', Option.some.injEq] at h
      have hk : a.1 = k := by simpa using ha
      have : a = (k, v) := by
        cases a; simp only at hk h; rw [hk, h]
      rw [this]; exact List.mem_cons_self _ _
    · simp only [Bool.not_eq_true] at ha
      simp only [ha] at h
      exact List.mem_cons_of_mem _ (ih h)

theorem handleWorkerMessage_metrics (s : State) (id : String) (a : AgentRecord)
    (r : MetricsReport) (h : mapGet s.agents id = some a) :
    mapGet (handleWorkerMessage s id (WorkerOut.metrics r)).agents id =
      some { a with metrics := a.metrics.merge r } := by
  unfold handleWorkerMessage
  rw [h]
  exact mapGet_mapSet_same _ _ _ (mapHas_of_mapGet _ _ _ h)

theorem handleWorkerMessage_record (s : State) (id : String) (a : AgentRecord) (o : WorkerOut)
    (h : mapGet s.agents id = some a) :
    ∃ a1, mapGet (handleWorkerMessage s id o).agents id = some a1 ∧ a1.type = a.type := by
  cases o with
  | metrics r => exact ⟨_, handleWorkerMessage_metrics s id a r h, rfl⟩
  | decision d =>
    unfold handleWorkerMessage
    rw [h]
    by_cases hd : d.action = "EXECUTE"
    · simp only [hd, if_true]
      exact ⟨_, mapGet_mapSet_same _ _ _ (mapHas_of_mapGet _ _ _ h), rfl⟩
    · simp only [hd, if_false]
      exact ⟨a, h, rfl⟩

theorem handleWorkerMessages_record (out : List WorkerOut) (s : State) (id : String)
    (a : AgentRecord) (h : mapGet s.agents id = some a) :
    ∃ a1, mapGet (handleWorkerMessages s id out).agents id = some a1 ∧ a1.type = a.type := by
  induction out generalizing s a with
  | nil => exact ⟨a, h, rfl⟩
  | cons o t ih =>
    obtain ⟨a1, h1, t1⟩ := handleWorkerMessage_record s id a o h
    obtain ⟨a2, h2, t2⟩ := ih (handleWorkerMessage s id o) a1 h1
    exact ⟨a2, h2, t2.trans t1⟩

theorem handleWorkerMessages_append (s : State) (id : String) (o1 o2 : List WorkerOut) :
    handleWorkerMessages s id (o1 ++ o2) =
      handleWorkerMessages (handleWorkerMessages s id o1) id o2 := by
  simp [handleWorkerMessages, List.foldl_append]

theorem processBlockEvaluate_calls (s : State) (ledger : String → BroadcastReply) :
    (processBlockEvaluate s ledger).2 =
      s.agents.filterMap (fun p => (referencePolicy p.2.type p.2.metrics).map (fun r => (p.1, r))) := by
  unfold processBlockEvaluate
  rw [foldl_evaluateAgent_calls]
  simp

theorem referencePolicy_low_efficiency_zero (m : Metrics) (hw : m.evalWindow > 10)
    (he : m.efficiency = 0) (hf : m.consecutiveFailures = 0) :
    referencePolicy "HUNTER" m = some "low_efficiency_0.00" := by
  unfold referencePolicy
  have h1 : ¬ (m.consecutiveFailures > 0) := by omega
  have h2 : m.evalWindow > 10 ∧ m.efficiency < 1 / 10 := ⟨hw, by rw [he]; norm_num⟩
  rw [if_neg h1, if_pos rfl, if_pos h2, he, toFixed2_zero]
  rfl

/-- Counterexample to C12 as stated, on the active HUNTER `hunter_106`.
Eleven blocks of usage 0 make the worker post no message at all: the merged
`evalWindow` stays 0 and the evaluation issues no kill. Eleven blocks of usage
2,000,000 of which the first carries `executionFailed` give no decision, a
merged `evalWindow` of 11, and a kill with reason `execution_fault`. -/
theorem low_efficiency_scenario_fails :
    (hunterRun (hunterInit "hunter_106") (dispatched (List.replicate 11 emptyBlock))).2 = [] ∧
    (mapGet (handleWorkerMessages hunterActive "hunter_106"
        (hunterRun (hunterInit "hunter_106")
          (dispatched (List.replicate 11 emptyBlock))).2).agents "hunter_106").map
      (fun a => a.metrics.evalWindow) = some 0 ∧
    (processBlockEvaluate
        (handleWorkerMessages hunterActive "hunter_106"
          (hunterRun (hunterInit "hunter_106")
            (dispatched (List.replicate 11 emptyBlock))).2)
        (fun _ => replyConfirmed)).2 = [] ∧
    decisionCount (hunterRun (hunterInit "hunter_106")
        (WorkerIn.block quietBlock.gasUsed quietBlock.hash true ::
          dispatched (List.replicate 10 quietBlock))).2 = 0 ∧
    (mapGet (handleWorkerMessages hunterActive "hunter_106"
        (hunterRun (hunterInit "hunter_106")
          (WorkerIn.block quietBlock.gasUsed quietBlock.hash true ::
            dispatched (List.replicate 10 quietBlock))).2).agents "hunter_106").map
      (fun a => a.metrics.evalWindow) = some 11 ∧
    (processBlockEvaluate
        (handleWorkerMessages hunterActive "hunter_106"
          (hunterRun (hunterInit "hunter_106")
            (WorkerIn.block quietBlock.gasUsed quietBlock.hash true ::
              dispatched (List.replicate 10 quietBlock))).2)
        (fun _ => replyConfirmed)).2 = [("hunter_106", "execution_fault")] := by
  decide

theorem quiet_blocks_merged (s : State) (id : String) (a : AgentRecord)
    (pre : List BlockData) (b1 b2 : BlockData) (ledger : String → BroadcastReply)
    (hn : 11 ≤ (pre ++ [b1, b2]).length)
    (hrec : mapGet s.agents id = some a) (hty : a.type = "HUNTER")
    (hnz : parseInt16 b1.gasUsed ≠ JSNum.int 0)
    (hdec : decisionCount (hunterRun (hunterInit id) (dispatched (pre ++ [b1, b2]))).2 = 0) :
    ∃ a2,
      mapGet (handleWorkerMessages s id
        (hunterRun (hunterInit id) (dispatched (pre ++ [b1, b2]))).2).agents id = some a2 ∧
      a2.metrics.evalWindow = (pre ++ [b1, b2]).length ∧
      a2.metrics.outputs = 0 ∧
      a2.metrics.efficiency = 0 ∧
      (id, "low_efficiency_0.00") ∈
        (processBlockEvaluate
          (handleWorkerMessages s id
            (hunterRun (hunterInit id) (dispatched (pre ++ [b1, b2]))).2) ledger).2 := by
  have hsplit : pre ++ [b1, b2] = (pre ++ [b1]) ++ [b2] := by simp
  have hrun : hunterRun (hunterInit id) (dispatched (pre ++ [b1, b2])) =
      ((hunterOnMessage (hunterRun (hunterInit id) (dispatched (pre ++ [b1]))).1
          (WorkerIn.block b2.gasUsed b2.hash false)).1,
       (hunterRun (hunterInit id) (dispatched (pre ++ [b1]))).2 ++
         (hunterOnMessage (hunterRun (hunterInit id) (dispatched (pre ++ [b1]))).1
          (WorkerIn.block b2.gasUsed b2.hash false)).2) := by
    rw [hsplit]
    simp only [dispatched, List.map_append, List.map_cons, List.map_nil]
    rw [hunterRun_append]
    simp [hunterRun]
  rw [hrun] at hdec ⊢
  simp only [decisionCount_append] at hdec
  have hd1 : decisionCount (hunterRun (hunterInit id) (dispatched (pre ++ [b1]))).2 = 0 := by omega
  have hd2 : decisionCount
      (hunterOnMessage (hunterRun (hunterInit id) (dispatched (pre ++ [b1]))).1
          (WorkerIn.block b2.gasUsed b2.hash false)).2 = 0 := by omega
  obtain ⟨ew, ho, hf⟩ := hunter_quiet_run (pre ++ [b1]) (hunterInit id) hd1
  have hlast : (hunterRun (hunterInit id) (dispatched (pre ++ [b1]))).1.lastGas =
      parseInt16 b1.gasUsed := by
    simp only [dispatched, List.map_append, List.map_cons, List.map_nil]
    rw [hunterRun_append]
    simp only [hunterRun]
    exact hunter_block_lastGas _ _ _ _
  have hrep := hunter_quiet_report (hunterRun (hunterInit id) (dispatched (pre ++ [b1]))).1
    b2.gasUsed b2.hash (by rw [hlast]; exact hnz) hd2
  rw [hrep, handleWorkerMessages_append]
  obtain ⟨a1, h1, t1⟩ := handleWorkerMessages_record
    (hunterRun (hunterInit id) (dispatched (pre ++ [b1]))).2 s id a hrec
  have hlen : (pre ++ [b1, b2]).length = (pre ++ [b1]).length + 1 := by simp
  have hget : mapGet (handleWorkerMessages
      (handleWorkerMessages s id (hunterRun (hunterInit id) (dispatched (pre ++ [b1]))).2) id
      [hunterMetrics
        { (hunterRun (hunterInit id) (dispatched (pre ++ [b1]))).1 with
          evalWindow := (hunterRun (hunterInit id) (dispatched (pre ++ [b1]))).1.evalWindow + 1
          lastGas := parseInt16 b2.gasUsed }]).agents id = some _ :=
    handleWorkerMessage_metrics _ id a1 _ h1
  have hinit0 : (hunterInit id).evalWindow = 0 := rfl
  have hinit1 : (hunterInit id).outputs = 0 := rfl
  have hinit2 : (hunterInit id).consecutiveFailures = 0 := rfl
  refine ⟨_, hget, ?_, ?_, ?_, ?_⟩
  · simp only [Metrics.merge]
    rw [ew, hinit0, hlen]; omega
  · simp [Metrics.merge, hunterMetrics, ho, hinit1]
  · simp [Metrics.merge, hunterMetrics, ho, hinit1, ratToDouble]
  · rw [processBlockEvaluate_calls, List.mem_filterMap]
    refine ⟨_, mapGet_mem _ _ _ hget, ?_⟩
    simp only [t1, hty]
    rw [referencePolicy_low_efficiency_zero]
    · rfl
    · simp only [Metrics.merge]
      rw [ew, hinit0]
      rw [hlen] at hn
      omega
    · simp [Metrics.merge, hunterMetrics, ho, hinit1, ratToDouble]
    · simp [Metrics.merge, hunterMetrics, hf, hinit2]

theorem hunter_flagged_step (st : HunterState) (g h : String) (f : Bool)
    (hd : decisionCount (hunterOnMessage st (WorkerIn.block g h f)).2 = 0) :
    (hunterOnMessage st (WorkerIn.block g h f)).1.evalWindow = st.evalWindow + 1 ∧
    (hunterOnMessage st (WorkerIn.block g h f)).1.outputs = st.outputs ∧
    (hunterOnMessage st (WorkerIn.block g h f)).1.consecutiveFailures =
      st.consecutiveFailures + (if f = true then 1 else 0) := by
  cases f with
  | false => simpa using hunter_quiet_step st g h hd
  | true =>
    simp only [hunterOnMessage, hunterProcessBlock, if_true] at hd ⊢
    by_cases h0 : JSNum.strictEq st.lastGas (JSNum.int 0) = true
    · simp [h0]
    · by_cases h1 : JSNum.gt (JSNum.absDiff (parseInt16 g) st.lastGas) (JSNum.int 3000000) = true
      · simp [h0, h1, decisionCount, hunterDecision, hunterMetrics, WorkerOut.isDecision] at hd
      · simp [h0, h1]

theorem hunter_flagged_report (st : HunterState) (g h : String) (f : Bool)
    (hl : st.lastGas ≠ JSNum.int 0)
    (hd : decisionCount (hunterOnMessage st (WorkerIn.block g h f)).2 = 0) :
    (hunterOnMessage st (WorkerIn.block g h f)).2 =
      [hunterMetrics (hunterOnMessage st (WorkerIn.block g h f)).1] := by
  have h0 : JSNum.strictEq st.lastGas (JSNum.int 0) = false := by
    cases hg : st.lastGas with
    | nan => rfl
    | int i =>
      have : i ≠ 0 := by
        intro hi; apply hl; rw [hg, hi]
      simp [JSNum.strictEq, this]
  cases f with
  | false =>
    simp only [hunterOnMessage, hunterProcessBlock, Bool.false_eq_true, if_false] at hd ⊢
    by_cases h1 : JSNum.gt (JSNum.absDiff (parseInt16 g) st.lastGas) (JSNum.int 3000000) = true
    · simp [h0, h1, decisionCount, hunterDecision, hunterMetrics, WorkerOut.isDecision] at hd
    · simp [h0, h1]
  | true =>
    simp only [hunterOnMessage, hunterProcessBlock, if_true] at hd ⊢
    by_cases h1 : JSNum.gt (JSNum.absDiff (parseInt16 g) st.lastGas) (JSNum.int 3000000) = true
    · simp [h0, h1, decisionCount, hunterDecision, hunterMetrics, WorkerOut.isDecision] at hd
    · simp [h0, h1]

theorem hunter_flagged_run (bs : List (BlockData × Bool)) (st : HunterState)
    (hd : decisionCount (hunterRun st (posted bs)).2 = 0) :
    (hunterRun st (posted bs)).1.evalWindow = st.evalWindow + bs.length ∧
    (hunterRun st (posted bs)).1.outputs = st.outputs ∧
    (hunterRun st (posted bs)).1.consecutiveFailures =
      st.consecutiveFailures + bs.countP (fun b => b.2) := by
  induction bs generalizing st with
  | nil => simp [posted, hunterRun]
  | cons b t ih =>
    simp only [posted, List.map_cons, hunterRun, decisionCount_append] at hd ⊢
    have h1 : decisionCount (hunterOnMessage st (WorkerIn.block b.1.gasUsed b.1.hash b.2)).2 = 0 := by
      omega
    obtain ⟨f1, f2, f3⟩ := hunter_flagged_step st b.1.gasUsed b.1.hash b.2 h1
    have h3 := ih (hunterOnMessage st (WorkerIn.block b.1.gasUsed b.1.hash b.2)).1
      (by simp only [posted]; omega)
    simp only [posted] at h3
    obtain ⟨e1, e2, e3⟩ := h3
    refine ⟨?_, e2.trans f2, ?_⟩
    · rw [e1, f1, List.length_cons]; omega
    · rw [e3, f3, List.countP_cons]
      cases b.2 <;> (simp; try omega)

theorem flagged_blocks_fault (s : State) (id : String) (a : AgentRecord)
    (pre : List (BlockData × Bool)) (m1 m2 : BlockData × Bool)
    (ledger : String → BroadcastReply)
    (hrec : mapGet s.agents id = some a)
    (hnz : parseInt16 m1.1.gasUsed ≠ JSNum.int 0)
    (hdec : decisionCount (hunterRun (hunterInit id) (posted (pre ++ [m1, m2]))).2 = 0)
    (hflag : ∃ m ∈ pre ++ [m1, m2], m.2 = true) :
    ∃ a2,
      mapGet (handleWorkerMessages s id
        (hunterRun (hunterInit id) (posted (pre ++ [m1, m2]))).2).agents id = some a2 ∧
      a2.metrics.evalWindow = (pre ++ [m1, m2]).length ∧
      0 < a2.metrics.consecutiveFailures ∧
      (id, "execution_fault") ∈
        (processBlockEvaluate
          (handleWorkerMessages s id
            (hunterRun (hunterInit id) (posted (pre ++ [m1, m2]))).2) ledger).2 := by
  obtain ⟨ew, _, cf⟩ := hunter_flagged_run (pre ++ [m1, m2]) (hunterInit id) hdec
  have hcount : 0 < (pre ++ [m1, m2]).countP (fun b => b.2) := by
    rw [List.countP_pos_iff]
    obtain ⟨m, hm, hf⟩ := hflag
    exact ⟨m, hm, hf⟩
  have hsplit : pre ++ [m1, m2] = (pre ++ [m1]) ++ [m2] := by simp
  have hrun : hunterRun (hunterInit id) (posted (pre ++ [m1, m2])) =
      ((hunterOnMessage (hunterRun (hunterInit id) (posted (pre ++ [m1]))).1
          (WorkerIn.block m2.1.gasUsed m2.1.hash m2.2)).1,
       (hunterRun (hunterInit id) (posted (pre ++ [m1]))).2 ++
         (hunterOnMessage (hunterRun (hunterInit id) (posted (pre ++ [m1]))).1
          (WorkerIn.block m2.1.gasUsed m2.1.hash m2.2)).2) := by
    rw [hsplit]
    simp only [posted, List.map_append, List.map_cons, List.map_nil]
    rw [hunterRun_append]
    simp [hunterRun]
  have hfin : (hunterOnMessage (hunterRun (hunterInit id) (posted (pre ++ [m1]))).1
      (WorkerIn.block m2.1.gasUsed m2.1.hash m2.2)).1 =
      (hunterRun (hunterInit id) (posted (pre ++ [m1, m2]))).1 := by
    rw [hrun]
  rw [hrun] at hdec
  simp only [decisionCount_append] at hdec
  have hd2 : decisionCount
      (hunterOnMessage (hunterRun (hunterInit id) (posted (pre ++ [m1]))).1
          (WorkerIn.block m2.1.gasUsed m2.1.hash m2.2)).2 = 0 := by omega
  have hlast : (hunterRun (hunterInit id) (posted (pre ++ [m1]))).1.lastGas =
      parseInt16 m1.1.gasUsed := by
    simp only [posted, List.map_append, List.map_cons, List.map_nil]
    rw [hunterRun_append]
    simp only [hunterRun]
    exact hunter_block_lastGas _ _ _ _
  have hrep := hunter_flagged_report (hunterRun (hunterInit id) (posted (pre ++ [m1]))).1
    m2.1.gasUsed m2.1.hash m2.2 (by rw [hlast]; exact hnz) hd2
  rw [hfin] at hrep
  have hout : (hunterRun (hunterInit id) (posted (pre ++ [m1, m2]))).2 =
      (hunterRun (hunterInit id) (posted (pre ++ [m1]))).2 ++
        [hunterMetrics (hunterRun (hunterInit id) (posted (pre ++ [m1, m2]))).1] := by
    rw [← hrep, hrun]
  rw [hout, handleWorkerMessages_append]
  obtain ⟨a1, h1, _⟩ := handleWorkerMessages_record
    (hunterRun (hunterInit id) (posted (pre ++ [m1]))).2 s id a hrec
  have hget : mapGet (handleWorkerMessages
      (handleWorkerMessages s id (hunterRun (hunterInit id) (posted (pre ++ [m1]))).2) id
      [hunterMetrics (hunterRun (hunterInit id) (posted (pre ++ [m1, m2]))).1]).agents id =
      some _ :=
    handleWorkerMessage_metrics _ id a1 _ h1
  have hinit0 : (hunterInit id).evalWindow = 0 := rfl
  have hinit2 : (hunterInit id).consecutiveFailures = 0 := rfl
  have hcf : 0 < (hunterRun (hunterInit id) (posted (pre ++ [m1, m2]))).1.consecutiveFailures := by
    rw [cf, hinit2]; omega
  refine ⟨_, hget, ?_, ?_, ?_⟩
  · simp only [Metrics.merge, hunterMetrics]
    rw [ew, hinit0]; omega
  · simpa [Metrics.merge, hunterMetrics] using hcf
  · rw [processBlockEvaluate_calls, List.mem_filterMap]
    refine ⟨_, mapGet_mem _ _ _ hget, ?_⟩
    simp only [referencePolicy, hunterMetrics, Metrics.merge, Option.getD_some]
    rw [if_pos hcf]
    rfl

/-- Claim C12, amended. For every sequence of n >= 11 blocks dispatched by the
pipeline (so none carries `executionFailed`) to a freshly initialised HUNTER
worker, during which the worker emits no decision and in which the usage of the
block before the last is not 0, the reports merged into the record give
`evalWindow = n`, `outputs = 0` and `efficiency = 0`, and the evaluation phase
calls `requestKill` for the agent with reason `low_efficiency_0.00`. When some
block of such a sequence is sent with `executionFailed` instead, the merged
`evalWindow` is still n, the merged `consecutiveFailures` is positive and the
evaluation phase calls `requestKill` with reason `execution_fault`. -/
theorem low_efficiency_pruning (s : State) (id : String) (a : AgentRecord)
    (ledger : String → BroadcastReply)
    (hrec : mapGet s.agents id = some a) (hty : a.type = "HUNTER") :
    (∀ (pre : List BlockData) (b1 b2 : BlockData),
      11 ≤ (pre ++ [b1, b2]).length →
      parseInt16 b1.gasUsed ≠ JSNum.int 0 →
      decisionCount (hunterRun (hunterInit id) (dispatched (pre ++ [b1, b2]))).2 = 0 →
      ∃ a2,
        mapGet (handleWorkerMessages s id
          (hunterRun (hunterInit id) (dispatched (pre ++ [b1, b2]))).2).agents id = some a2 ∧
        a2.metrics.evalWindow = (pre ++ [b1, b2]).length ∧
        a2.metrics.outputs = 0 ∧
        a2.metrics.efficiency = 0 ∧
        (id, "low_efficiency_0.00") ∈
          (processBlockEvaluate
            (handleWorkerMessages s id
              (hunterRun (hunterInit id) (dispatched (pre ++ [b1, b2]))).2) ledger).2) ∧
    (∀ (pre : List (BlockData × Bool)) (m1 m2 : BlockData × Bool),
      11 ≤ (pre ++ [m1, m2]).length →
      parseInt16 m1.1.gasUsed ≠ JSNum.int 0 →
      decisionCount (hunterRun (hunterInit id) (posted (pre ++ [m1, m2]))).2 = 0 →
      (∃ m ∈ pre ++ [m1, m2], m.2 = true) →
      ∃ a2,
        mapGet (handleWorkerMessages s id
          (hunterRun (hunterInit id) (posted (pre ++ [m1, m2]))).2).agents id = some a2 ∧
        a2.metrics.evalWindow = (pre ++ [m1, m2]).length ∧
        0 < a2.metrics.consecutiveFailures ∧
        (id, "execution_fault") ∈
          (processBlockEvaluate
            (handleWorkerMessages s id
              (hunterRun (hunterInit id) (posted (pre ++ [m1, m2]))).2) ledger).2) :=
  ⟨fun pre b1 b2 hn hnz hdec =>
      quiet_blocks_merged s id a pre b1 b2 ledger hn hrec hty hnz hdec,
   fun pre m1 m2 _ hnz hdec hflag =>
      flagged_blocks_fault s id a pre m1 m2 ledger hrec hnz hdec hflag⟩

/-- Witness of C12: n = 11, eleven blocks of usage 2,000,000 dispatched to the
worker of `hunter_106`. -/
theorem low_efficiency_pruning_witness :
    ∃ a2,
      mapGet (handleWorkerMessages hunterActive "hunter_106"
        (hunterRun (hunterInit "hunter_106")
          (dispatched (List.replicate 9 quietBlock ++ [quietBlock, quietBlock]))).2).agents
        "hunter_106" = some a2 ∧
      a2.metrics.evalWindow = (List.replicate 9 quietBlock ++ [quietBlock, quietBlock]).length ∧
      a2.metrics.outputs = 0 ∧
      a2.metrics.efficiency = 0 ∧
      ("hunter_106", "low_efficiency_0.00") ∈
        (processBlockEvaluate
          (handleWorkerMessages hunterActive "hunter_106"
            (hunterRun (hunterInit "hunter_106")
              (dispatched (List.replicate 9 quietBlock ++ [quietBlock, quietBlock]))).2)
          (fun _ => replyConfirmed)).2 :=
  (low_efficiency_pruning hunterActive "hunter_106"
    (newRecord WorkerSource.hunter "HUNTER" "hunter_106" 107) (fun _ => replyConfirmed)
    (by decide) (by decide)).1
    (List.replicate 9 quietBlock) quietBlock quietBlock (by decide) (by decide) (by decide)

/-! ## Fault eviction through the pipeline -/

theorem mem_mapSet {β : Type} (m : List (String × β)) (k : String) (v : β) (p : String × β)
    (h : p ∈ mapSet m k v) : p ∈ m ∨ p = (k, v) := by
  unfold mapSet at h
  split_ifs at h
  · rw [List.mem_map] at h
    obtain ⟨q, hq, e⟩ := h
    by_cases hk : (q.1 == k) = true
    · rw [if_pos hk] at e; exact Or.inr e.symm
    · rw [if_neg hk] at e; rw [← e]; exact Or.inl hq
  · rw [List.mem_append, List.mem_singleton] at h
    exact h

theorem mem_mapDelete {β : Type} (m : List (String × β)) (k : String) (p : String × β)
    (h : p ∈ mapDelete m k) : p ∈ m := by
  unfold mapDelete at h
  exact (List.mem_filter.1 h).1

theorem worker_noFailure_iff (w : Worker) :
    w.noFailure = true ↔
      (∀ m ∈ w.inbox, m.noFailure = true) ∧ w.mem.noFailure w.source = true ∧
      (∀ o ∈ w.outbox, o.noFailure = true) ∧
      (w.source = WorkerSource.hunter ∨ ∀ o ∈ w.outbox, o.isDecision = false) := by
  simp [Worker.noFailure, List.all_eq_true, and_assoc]

theorem hunterOnMessage_noFailure (st : HunterState) (m : WorkerIn)
    (hm : m.noFailure = true) (hst : st.consecutiveFailures = 0) :
    (hunterOnMessage st m).1.consecutiveFailures = 0 ∧
    ∀ o ∈ (hunterOnMessage st m).2, o.noFailure = true := by
  cases m with
  | init id b => simp [hunterOnMessage, hunterInit]
  | block g h f =>
    have hf : f = false := by simpa [WorkerIn.noFailure] using hm
    subst hf
    simp only [hunterOnMessage, hunterProcessBlock, Bool.false_eq_true, if_false]
    split_ifs <;> simp [hunterMetrics, hunterDecision, WorkerOut.noFailure, hst]

theorem crisisOnMessage_noFailure (st : CrisisState) (m : WorkerIn) (hm : m.noFailure = true) :
    ∀ o ∈ (crisisOnMessage st m).2, o.noFailure = true ∧ o.isDecision = false := by
  cases m with
  | init id b => simp [crisisOnMessage]
  | block g h f =>
    have hf : f = false := by simpa [WorkerIn.noFailure] using hm
    subst hf
    simp [crisisOnMessage, crisisMetrics, WorkerOut.noFailure, WorkerOut.isDecision]

theorem worker_run_noFailure (w w2 : Worker) (h : w.run = some w2) (hw : w.noFailure = true) :
    w2.noFailure = true := by
  rw [worker_noFailure_iff] at hw ⊢
  obtain ⟨hin, hmem, hout, hdec⟩ := hw
  unfold Worker.run at h
  cases hi : w.inbox with
  | nil =>
    rw [hi] at h
    simp only [Option.some.injEq] at h
    subst h
    exact ⟨by rw [hi]; simp, hmem, hout, hdec⟩
  | cons m rest =>
    rw [hi] at h hin
    have hm : m.noFailure = true := hin m (List.mem_cons_self _ _)
    have hrest : ∀ x ∈ rest, x.noFailure = true := fun x hx => hin x (List.mem_cons_of_mem _ hx)
    cases hmm : w.mem with
    | hunter st =>
      rw [hmm] at h hmem
      simp only [Option.some.injEq] at h
      subst h
      simp only [WorkerMem.noFailure, Bool.and_eq_true, beq_iff_eq] at hmem
      obtain ⟨h1, h2⟩ := hunterOnMessage_noFailure st m hm hmem.2
      refine ⟨hrest, ?_, ?_, Or.inl hmem.1⟩
      · simp [WorkerMem.noFailure, hmem.1, h1]
      · intro o ho
        rcases List.mem_append.1 ho with ho | ho
        · exact hout o ho
        · exact h2 o ho
    | crisis st =>
      rw [hmm] at h hmem
      simp only [Option.some.injEq] at h
      subst h
      simp only [WorkerMem.noFailure, beq_iff_eq] at hmem
      have h2 := crisisOnMessage_noFailure st m hm
      have hdec2 : ∀ o ∈ w.outbox, o.isDecision = false := by
        rcases hdec with hd | hd
        · rw [hmem] at hd; exact WorkerSource.noConfusion hd
        · exact hd
      refine ⟨hrest, ?_, ?_, Or.inr ?_⟩
      · simp [WorkerMem.noFailure, hmem]
      · intro o ho
        rcases List.mem_append.1 ho with ho | ho
        · exact hout o ho
        · exact (h2 o ho).1
      · intro o ho
        rcases List.mem_append.1 ho with ho | ho
        · exact hdec2 o ho
        · exact (h2 o ho).2
    | loaded =>
      rw [hmm] at h
      cases m with
      | block g hh f => exact Option.noConfusion h
      | init id b =>
        cases hs : w.source with
        | hunter =>
          rw [hs] at h
          simp only [Option.some.injEq] at h
          subst h
          exact ⟨hrest, by simp [WorkerMem.noFailure, hunterInit], hout, Or.inl rfl⟩
        | crisis =>
          rw [hs] at h
          simp only [Option.some.injEq] at h
          subst h
          refine ⟨hrest, by simp [WorkerMem.noFailure], hout, ?_⟩
          rcases hdec with hd | hd
          · rw [hs] at hd; exact WorkerSource.noConfusion hd
          · exact Or.inr hd

theorem faultFree_of_agents (s t : State) (h : t.agents = s.agents) (hs : FaultFree s) :
    FaultFree t := by
  unfold FaultFree; rw [h]; exact hs

theorem faultFree_init : FaultFree State.init := by
  intro p hp
  simp [State.init] at hp

theorem newRecord_noFailure (src : WorkerSource) (type id : String) (b : Nat) :
    (newRecord src type id b).worker.noFailure = true ∧
    (newRecord src type id b).metrics.consecutiveFailures = 0 := by
  cases src <;>
    simp [newRecord, newWorker, Worker.noFailure, WorkerMem.noFailure, WorkerIn.noFailure]

theorem faultFree_mapSet (s : State) (id : String) (a : AgentRecord) (hs : FaultFree s)
    (ha : a.worker.noFailure = true ∧ a.metrics.consecutiveFailures = 0) :
    ∀ p ∈ mapSet s.agents id a, p.2.worker.noFailure = true ∧ p.2.metrics.consecutiveFailures = 0 := by
  intro p hp
  rcases mem_mapSet _ _ _ _ hp with h | h
  · exact hs p h
  · rw [h]; exact ha

theorem faultFree_handleAgentRegistered (s : State) (id : String) (b : Nat) (hs : FaultFree s) :
    FaultFree (handleAgentRegistered s id b) := by
  rcases handleAgentRegistered_cases s id with h | ⟨_, src, h⟩
  · rw [h b]; exact hs
  · rw [h b]
    exact faultFree_mapSet s id _ hs (newRecord_noFailure src _ id b)

theorem faultFree_handleAgentDeregistered (s : State) (id : String) (b : Nat)
    (hs : FaultFree s) : FaultFree (handleAgentDeregistered s id b) := by
  rcases handleAgentDeregistered_cases s id b with ⟨_, h⟩ | ⟨_, h⟩
  · rw [h]; exact hs
  · rw [h]
    intro p hp
    exact hs p (mem_mapDelete _ _ _ hp)

theorem worker_post_noFailure (w : Worker) (g h : String) (hw : w.noFailure = true) :
    (w.post (WorkerIn.block g h false)).noFailure = true := by
  rw [worker_noFailure_iff] at hw ⊢
  obtain ⟨h1, h2, h3, h4⟩ := hw
  refine ⟨?_, h2, h3, h4⟩
  intro m hm
  simp only [Worker.post] at hm
  rcases List.mem_append.1 hm with hm | hm
  · exact h1 m hm
  · rw [List.mem_singleton.1 hm]; rfl

theorem faultFree_executionPhase (s : State) (block : BlockData) (hs : FaultFree s) :
    FaultFree (executionPhase s block) := by
  intro p hp
  simp only [executionPhase, List.mem_map] at hp
  obtain ⟨q, hq, e⟩ := hp
  rw [← e]
  exact ⟨worker_post_noFailure _ _ _ (hs q hq).1, (hs q hq).2⟩

theorem faultFree_processBlockDispatch (s : State) (number : JSNum)
    (blockRes : RpcReply BlockData) (ledger : String → BroadcastReply) (hs : FaultFree s) :
    FaultFree (processBlockDispatch s number blockRes ledger).1 := by
  unfold processBlockDispatch
  cases blockRes with
  | threw => exact hs
  | null => exact hs
  | data result =>
    cases result with
    | none => exact hs
    | some block =>
      apply faultFree_executionPhase
      exact faultFree_of_agents s _ (by rw [signalDetection_agents]; rfl) hs

theorem faultFree_workerRun (s : State) (id : String) (hs : FaultFree s) :
    FaultFree (workerRun s id) := by
  unfold workerRun
  cases hg : mapGet s.agents id with
  | none => exact hs
  | some a =>
    dsimp only
    cases hr : a.worker.run with
    | none => exact hs
    | some w =>
      have ha := hs _ (mapGet_mem _ _ _ hg)
      exact faultFree_mapSet s id _ hs ⟨worker_run_noFailure _ _ hr ha.1, ha.2⟩

theorem faultFree_handleWorkerMessage (s : State) (id : String) (o : WorkerOut)
    (hs : FaultFree s) (ho : o.noFailure = true) : FaultFree (handleWorkerMessage s id o) := by
  unfold handleWorkerMessage
  cases hg : mapGet s.agents id with
  | none => exact hs
  | some a =>
    have ha := hs _ (mapGet_mem _ _ _ hg)
    cases o with
    | decision d =>
      by_cases hd : d.action = "EXECUTE"
      · simp only [hd, if_true]
        exact faultFree_mapSet s id _ hs ha
      · simp only [hd, if_false]
        exact hs
    | metrics m =>
      apply faultFree_mapSet s id _ hs
      refine ⟨ha.1, ?_⟩
      simp only [WorkerOut.noFailure, Bool.or_eq_true, beq_iff_eq] at ho
      rcases ho with h | h
      · simp only [Metrics.merge, h, Option.getD_none]
        exact ha.2
      · simp [Metrics.merge, h]

theorem faultFree_deliver (s : State) (id : String) (hs : FaultFree s) :
    FaultFree (deliver s id) := by
  unfold deliver
  cases hg : mapGet s.agents id with
  | none => exact hs
  | some a =>
    dsimp only
    have ha := hs _ (mapGet_mem _ _ _ hg)
    cases ho : a.worker.outbox with
    | nil => exact hs
    | cons m rest =>
      dsimp only
      have hw := (worker_noFailure_iff a.worker).1 ha.1
      rw [ho] at hw
      obtain ⟨h1, h2, h3, h4⟩ := hw
      apply faultFree_handleWorkerMessage
      · apply faultFree_mapSet s id _ hs
        refine ⟨?_, ha.2⟩
        rw [worker_noFailure_iff]
        refine ⟨h1, h2, fun o hmem => h3 o (List.mem_cons_of_mem _ hmem), ?_⟩
        rcases h4 with h4 | h4
        · exact Or.inl h4
        · exact Or.inr (fun o hmem => h4 o (List.mem_cons_of_mem _ hmem))
      · exact h3 m (List.mem_cons_self _ _)

theorem faultFree_step (s : State) (op : Op) (hd : op.driven = true) (hs : FaultFree s) :
    FaultFree (step s op) := by
  cases op with
  | requestSpawn id type r => exact faultFree_of_agents s _ (requestSpawn_agents s id type r) hs
  | requestKill id reason r => exact faultFree_of_agents s _ (requestKill_agents s id reason r) hs
  | handleAgentRegistered id b => exact faultFree_handleAgentRegistered s id b hs
  | handleAgentDeregistered id b => exact faultFree_handleAgentDeregistered s id b hs
  | handleWorkerMessage id data => exact Bool.noConfusion hd
  | checkChain heightRes => exact faultFree_of_agents s _ (checkChain_agents s heightRes) hs
  | processBlockDispatch number blockRes ledger =>
    exact faultFree_processBlockDispatch s number blockRes ledger hs
  | processBlockEvaluate ledger =>
    exact faultFree_of_agents s _ (processBlockEvaluate_agents s ledger) hs
  | workerRun id => exact faultFree_workerRun s id hs
  | deliver id => exact faultFree_deliver s id hs

theorem faultFree_of_reachable (s : State) (h : PipelineReachable s) : FaultFree s := by
  induction h with
  | init => exact faultFree_init
  | next t op hd _ ih => exact faultFree_step t op hd ih

theorem low_efficiency_ne_fault (x : String) : "low_efficiency_" ++ x ≠ "execution_fault" := by
  intro h
  have h2 : ("low_efficiency_" ++ x).data.head? = some 'l' := by
    rw [String.data_append]; rfl
  rw [h] at h2
  exact absurd h2 (by decide)

theorem referencePolicy_ne_fault (type : String) (m : Metrics)
    (h : m.consecutiveFailures = 0) : referencePolicy type m ≠ some "execution_fault" := by
  unfold referencePolicy
  have h0 : ¬ (m.consecutiveFailures > 0) := by omega
  rw [if_neg h0]
  split_ifs
  · intro e; exact low_efficiency_ne_fault _ (Option.some.inj e)
  · decide
  · exact fun e => Option.noConfusion e
  · decide
  · exact fun e => Option.noConfusion e
  · exact fun e => Option.noConfusion e

/-- Claim C13. Fault eviction is unreachable through the pipeline. The
execution phase posts to every worker a `BLOCK` with `executionFailed = false`.
In every state reached by steps in which workers receive only what the
orchestrator posts and the orchestrator handles only what workers post: no
`BLOCK` in an inbox carries the flag, a HUNTER worker counts 0 failures, every
`METRICS` report waiting in an outbox has `consecutiveFailures` 0 (or, from a
CRISIS worker, no such field), a CRISIS worker has posted no `DECISION`, every
record's merged `consecutiveFailures` is 0, and the evaluation phase issues no
kill with reason `execution_fault`. -/
theorem fault_eviction_unreachable (s : State) (h : PipelineReachable s) :
    FaultFree s ∧
    (∀ p ∈ s.agents,
      (∀ g hsh f, WorkerIn.block g hsh f ∈ p.2.worker.inbox → f = false) ∧
      (∀ st, p.2.worker.mem = WorkerMem.hunter st → st.consecutiveFailures = 0) ∧
      (∀ r, WorkerOut.metrics r ∈ p.2.worker.outbox →
        r.consecutiveFailures = none ∨ r.consecutiveFailures = some 0) ∧
      (p.2.worker.source = WorkerSource.crisis →
        ∀ d, WorkerOut.decision d ∉ p.2.worker.outbox) ∧
      p.2.metrics.consecutiveFailures = 0) ∧
    (∀ (ledger : String → BroadcastReply) (c : String × String),
      c ∈ (processBlockEvaluate s ledger).2 → c.2 ≠ "execution_fault") ∧
    (∀ (block : BlockData) (p : String × AgentRecord), p ∈ (executionPhase s block).agents →
      ∃ q ∈ s.agents,
        p.2.worker.inbox = q.2.worker.inbox ++ [WorkerIn.block block.gasUsed block.hash false]) := by
  have hff := faultFree_of_reachable s h
  refine ⟨hff, ?_, ?_, ?_⟩
  · intro p hp
    obtain ⟨hw, hm⟩ := hff p hp
    obtain ⟨h1, h2, h3, h4⟩ := (worker_noFailure_iff p.2.worker).1 hw
    refine ⟨?_, ?_, ?_, ?_, hm⟩
    · intro g hsh f hmem
      simpa [WorkerIn.noFailure] using h1 _ hmem
    · intro st hst
      rw [hst] at h2
      simp only [WorkerMem.noFailure, Bool.and_eq_true, beq_iff_eq] at h2
      exact h2.2
    · intro r hmem
      simpa [WorkerOut.noFailure] using h3 _ hmem
    · intro hsrc d hmem
      rcases h4 with h4 | h4
      · rw [hsrc] at h4; exact WorkerSource.noConfusion h4
      · have := h4 _ hmem
        simp [WorkerOut.isDecision] at this
  · intro ledger c hc
    rw [processBlockEvaluate_calls, List.mem_filterMap] at hc
    obtain ⟨p, hp, e⟩ := hc
    cases hr : referencePolicy p.2.type p.2.metrics with
    | none => rw [hr] at e; exact Option.noConfusion e
    | some r =>
      rw [hr] at e
      simp only [Option.map_some', Option.some.injEq] at e
      rw [← e]
      intro hx
      exact referencePolicy_ne_fault p.2.type p.2.metrics (hff p hp).2 (by rw [hr]; simp at hx; rw [hx])
  · intro block p hp
    simp only [executionPhase, List.mem_map] at hp
    obtain ⟨q, hq, e⟩ := hp
    exact ⟨q, hq, by rw [← e]; rfl⟩

/-- Witness of C13: the session after two pipeline cycles over `hunter_106`. -/
theorem fault_eviction_unreachable_witness :
    PipelineReachable afterTwoCycles ∧ FaultFree afterTwoCycles :=
  have hr : PipelineReachable afterTwoCycles :=
    PipelineReachable.next _ (Op.deliver "hunter_106") rfl
      (PipelineReachable.next _ (Op.workerRun "hunter_106") rfl
        (PipelineReachable.next _
          (Op.processBlockDispatch (JSNum.int 109) (RpcReply.data (some quietBlock))
            (fun _ => replyConfirmed)) rfl
          (PipelineReachable.next _ (Op.workerRun "hunter_106") rfl
            (PipelineReachable.next _ (Op.workerRun "hunter_106") rfl
              (PipelineReachable.next _
                (Op.processBlockDispatch (JSNum.int 108) (RpcReply.data (some quietBlock))
                  (fun _ => replyConfirmed)) rfl
                (PipelineReachable.next _ (Op.handleAgentRegistered "hunter_106" 107) rfl
                  (PipelineReachable.next _
                    (Op.requestSpawn "hunter_106" "HUNTER" replyConfirmed) rfl
                    PipelineReachable.init)))))))
  ⟨hr, (fault_eviction_unreachable afterTwoCycles hr).1⟩

end MetaAgentFactory
